import Mathlib

/-!
Verification development for the vscode-mssql connection-dialog core
(`ConnectionDialogWebviewController`) and `ExtConfig`.

The TypeScript source is shallowly embedded: JavaScript objects keyed by
strings become association lists (`List (String × α)`) with JS-object
update semantics (replace in place when the key exists, append otherwise);
JS `undefined` becomes `Option.none`; functions that can throw are
embedded with `Except`; external collaborators (account service, firewall
service, remote validate-and-save) are passed in as explicit arguments.
-/

namespace MssqlDialog

/-- JS-object read: value of the first entry with the given key
(`obj[k]`, `none` when the key is absent).  Also models `Map.get`. -/
def objGet {κ α : Type} [DecidableEq κ] (m : List (κ × α)) (k : κ) : Option α :=
  (m.find? (fun e => e.1 = k)).map (fun e => e.2)

/-- JS-object write `obj[k] = v`: replaces the value in place when the key
is present (keeping insertion order), appends the entry otherwise.
This is also the semantics of `Map.set` for JS `Map`s. -/
def objSet {κ α : Type} [DecidableEq κ] (m : List (κ × α)) (k : κ) (v : α) : List (κ × α) :=
  if m.any (fun e => e.1 = k) then
    m.map (fun e => if e.1 = k then (k, v) else e)
  else
    m ++ [(k, v)]

/-- Keys of a JS object, in insertion order (`Object.keys`). -/
def objKeys {κ α : Type} (m : List (κ × α)) : List κ :=
  m.map (fun e => e.1)

/-- Values of a JS object, in insertion order (`Object.values` /
`Map.values`). -/
def objValues {κ α : Type} (m : List (κ × α)) : List α :=
  m.map (fun e => e.2)

theorem find?_setEntry_same {κ α : Type} [DecidableEq κ] (m : List (κ × α)) (k : κ) (v : α)
    (h : m.any (fun e => e.1 = k) = true) :
    (m.map (fun e => if e.1 = k then (k, v) else e)).find? (fun e => e.1 = k)
      = some (k, v) := by
  induction m with
  | nil => simp at h
  | cons e rest ih =>
    by_cases he : e.1 = k
    · simp [he, List.find?_cons_of_pos]
    · simp only [List.any_cons, Bool.or_eq_true, decide_eq_true_eq] at h
      rcases h with h | h
      · exact absurd h he
      · simp only [List.map_cons, if_neg he]
        rw [List.find?_cons_of_neg _ (by simpa using he)]
        exact ih h

theorem find?_setEntry_ne {κ α : Type} [DecidableEq κ] (m : List (κ × α)) (k k' : κ) (v : α)
    (hne : k' ≠ k) :
    (m.map (fun e => if e.1 = k then (k, v) else e)).find? (fun e => e.1 = k')
      = m.find? (fun e => e.1 = k') := by
  induction m with
  | nil => simp
  | cons e rest ih =>
    by_cases he : e.1 = k
    · simp only [List.map_cons, if_pos he]
      rw [List.find?_cons_of_neg _ (by simp only [decide_eq_true_eq]; exact fun hk => hne hk.symm),
        List.find?_cons_of_neg _ (by simp only [decide_eq_true_eq, he]; exact fun hk => hne hk.symm)]
      exact ih
    · simp only [List.map_cons, if_neg he]
      by_cases he' : e.1 = k'
      · rw [List.find?_cons_of_pos _ (by simpa using he'),
          List.find?_cons_of_pos _ (by simpa using he')]
      · rw [List.find?_cons_of_neg _ (by simpa using he'),
          List.find?_cons_of_neg _ (by simpa using he')]
        exact ih

theorem objGet_objSet_same {κ α : Type} [DecidableEq κ] (m : List (κ × α)) (k : κ) (v : α) :
    objGet (objSet m k v) k = some v := by
  unfold objGet objSet
  by_cases h : m.any (fun e => e.1 = k)
  · rw [if_pos h, find?_setEntry_same m k v h]
    rfl
  · rw [if_neg h]
    rw [List.find?_append]
    have hnone : m.find? (fun e => e.1 = k) = none := by
      rw [List.find?_eq_none]
      intro e he
      simp only [decide_eq_true_eq]
      intro hk
      exact h (List.any_eq_true.mpr ⟨e, he, by simpa using hk⟩)
    rw [hnone]
    simp [List.find?_cons_of_pos]

theorem objGet_objSet_ne {κ α : Type} [DecidableEq κ] (m : List (κ × α)) (k k' : κ) (v : α)
    (hne : k' ≠ k) : objGet (objSet m k v) k' = objGet m k' := by
  unfold objGet objSet
  by_cases h : m.any (fun e => e.1 = k)
  · rw [if_pos h, find?_setEntry_ne m k k' v hne]
  · rw [if_neg h, List.find?_append]
    cases hf : m.find? (fun e => e.1 = k') with
    | some e => rfl
    | none =>
      simp only [Option.none_or]
      rw [List.find?_cons_of_neg _ (by simpa using fun hk => hne hk.symm)]
      simp [List.find?_nil]

end MssqlDialog

namespace ExtConfigModel

/-- A JavaScript value as stored in a VS Code configuration: the cases that
matter for truthiness testing in `extConfig.ts`. -/
inductive JsVal
  | undef
  | null
  | str (s : String)
  | boolean (b : Bool)
  | num (n : Int)
deriving DecidableEq, Repr

/-- JS truthiness of a configuration value (`!configValue` tests falsy:
`undefined`, `null`, `""`, `false`, `0`). -/
def JsVal.truthy : JsVal → Bool
  | .undef => false
  | .null => false
  | .str s => s ≠ ""
  | .boolean b => b
  | .num n => n ≠ 0

/-- Model of an `ExtConfig` instance: the two workspace-configuration
lookups (returning `undefined` for missing keys) and the bundled
`Config`'s `getSqlToolsConfigValue`. -/
structure ExtConfig where
  extensionConfig : String → JsVal
  workspaceConfig : String → JsVal
  bundledConfig : String → JsVal

/-- `ExtConfig.getExtensionConfig(key, defaultValue)`: substitutes the
default only when the stored value is strictly `undefined`. -/
def getExtensionConfig (c : ExtConfig) (key : String) (defaultValue : JsVal) : JsVal :=
  let configValue := c.extensionConfig key
  if configValue = JsVal.undef then defaultValue else configValue

/-- `ExtConfig.getWorkspaceConfig(key, defaultValue)`: substitutes the
default only when the stored value is strictly `undefined`. -/
def getWorkspaceConfig (c : ExtConfig) (key : String) (defaultValue : JsVal) : JsVal :=
  let configValue := c.workspaceConfig key
  if configValue = JsVal.undef then defaultValue else configValue

/-- The derived key used by `getSqlToolsConfigValue`: the
`sqlToolsServiceConfigKey` constant joined with the caller's key by a dot.
The constant lives in `models/constants` (not part of the embedded
sources); its exact text is irrelevant here, so it is modelled as the
literal `"service"`. -/
def sqlToolsKey (configKey : String) : String :=
  "service" ++ "." ++ configKey

/-- `ExtConfig.getSqlToolsConfigValue(configKey)`: reads the extension
configuration under the derived key (no default, so a missing key yields
`undefined`), and falls back to the bundled `Config`'s value whenever the
extension value is falsy. -/
def getSqlToolsConfigValue (c : ExtConfig) (configKey : String) : JsVal :=
  let configValue := getExtensionConfig c (sqlToolsKey configKey) JsVal.undef
  if ¬configValue.truthy then c.bundledConfig configKey else configValue

end ExtConfigModel

namespace MssqlDialog

/-- `AuthenticationType` (sharedInterfaces/connectionDialog). -/
inductive AuthenticationType
  | SqlLogin
  | AzureMFA
  | Integrated
deriving DecidableEq, Repr

/-- `ConnectionInputMode` (sharedInterfaces/connectionDialog). -/
inductive ConnectionInputMode
  | Parameters
  | ConnectionString
  | AzureBrowse
deriving DecidableEq, Repr

/-- `ApiStatus` (sharedInterfaces/webview). -/
inductive ApiStatus
  | NotStarted
  | Loading
  | Loaded
  | Error
deriving DecidableEq, Repr

/-- `FormItemType` (reactviews/common/forms/form). -/
inductive FormItemType
  | Input
  | Password
  | Checkbox
  | Dropdown
  | TextArea
deriving DecidableEq, Repr

/-- A value stored in a connection profile field.  JS `undefined` is
represented by wrapping in `Option` at use sites. -/
inductive FieldValue
  | str (s : String)
  | boolean (b : Bool)
  | num (n : Int)
  | auth (a : AuthenticationType)
deriving DecidableEq, Repr

/-- JS truthiness of a (possibly absent) profile value: `undefined`,
`""`, `false` and `0` are falsy. -/
def fvTruthy : Option FieldValue → Bool
  | none => false
  | some (.str s) => s ≠ ""
  | some (.boolean b) => b
  | some (.num n) => n ≠ 0
  | some (.auth _) => true

/-- A connection profile (`IConnectionDialogProfile`): a JS object mapping
property names to values; an entry whose value is `none` is a key that is
present but set to `undefined`. -/
abbrev Profile : Type := List (String × Option FieldValue)

/-- The raw string stored in a profile field, when the field holds a
string (`undefined` and non-strings give `none`). -/
def profString (p : Profile) (key : String) : Option String :=
  match objGet p key with
  | some (some (.str s)) => some s
  | _ => none

/-- The authentication type currently stored in a profile
(`profile.authenticationType`); `none` when absent or not an
`AuthenticationType` value. -/
def profAuthType (p : Profile) : Option AuthenticationType :=
  match objGet p "authenticationType" with
  | some (some (.auth a)) => some a
  | _ => none

/-- `FormItemOptions`: one dropdown option. -/
structure FormItemOptions where
  displayName : String
  value : String
deriving DecidableEq, Repr

/-- A form action button (`FormItemActionButton`), without its callback
closure: the registered callbacks are host-side effects identified by
`id`. -/
structure FormItemActionButton where
  label : String
  id : String
deriving DecidableEq, Repr

/-- Result of a field validator. -/
structure ValidationResult where
  isValid : Bool
  validationMessage : String
deriving DecidableEq, Repr

/-- The validator closures attached to form components in
`completeFormComponents`, represented symbolically.  Each closure reads
`this.state.connectionProfile.authenticationType` or
`this.state.selectedInputMode` plus the value it is given. -/
inductive Validator
  | serverRequired
  | usernameRequired
  | accountIdRequired
  | tenantIdRequired
  | connectionStringRequired
deriving DecidableEq, Repr

/-- The state the validator closures capture: the live dialog state's
authentication type and selected input mode. -/
structure ValidatorCtx where
  stateAuthType : Option AuthenticationType
  stateInputMode : ConnectionInputMode
deriving DecidableEq, Repr

/-- Runs one validator closure on a value, exactly as written in
`completeFormComponents`. -/
def runValidator (ctx : ValidatorCtx) (v : Validator) (value : Option FieldValue) :
    ValidationResult :=
  match v with
  | .serverRequired =>
      if ctx.stateAuthType = some .SqlLogin ∧ ¬fvTruthy value then
        { isValid := false, validationMessage := "serverIsRequired" }
      else { isValid := true, validationMessage := "" }
  | .usernameRequired =>
      if ctx.stateAuthType = some .SqlLogin ∧ ¬fvTruthy value then
        { isValid := false, validationMessage := "usernameIsRequired" }
      else { isValid := true, validationMessage := "" }
  | .accountIdRequired =>
      if ctx.stateAuthType = some .AzureMFA ∧ ¬fvTruthy value then
        { isValid := false, validationMessage := "azureAccountIsRequired" }
      else { isValid := true, validationMessage := "" }
  | .tenantIdRequired =>
      if ctx.stateAuthType = some .AzureMFA ∧ ¬fvTruthy value then
        { isValid := false, validationMessage := "tenantIdIsRequired" }
      else { isValid := true, validationMessage := "" }
  | .connectionStringRequired =>
      if ctx.stateInputMode = .ConnectionString ∧ ¬fvTruthy value then
        { isValid := false, validationMessage := "connectionStringIsRequired" }
      else { isValid := true, validationMessage := "" }

/-- `ConnectionDialogFormItemSpec`: one compiled form component.  Every
field that the TypeScript object may lack is wrapped in `Option`; an
entry produced from an unrecognized capability value-kind has `none` in
all the fields that `convertToFormComponent` would have supplied. -/
structure ConnDialogFormItemSpec where
  propertyName : Option String := none
  label : Option String := none
  required : Option Bool := none
  type : Option FormItemType := none
  tooltip : Option String := none
  options : Option (List FormItemOptions) := none
  placeholder : Option String := none
  actionButtons : Option (List FormItemActionButton) := none
  isAdvancedOption : Bool := false
  optionCategory : Option String := none
  optionCategoryLabel : Option String := none
  hidden : Option Bool := none
  validate : Option Validator := none
  validation : Option ValidationResult := none
deriving DecidableEq, Repr

/-- The compiled field-spec map, keyed by property name, in insertion
order. -/
abbrev Components : Type := List (String × ConnDialogFormItemSpec)

/-- One entry of a capability descriptor's `categoryValues`. -/
structure CategoryValue where
  name : String
  displayName : Option String
deriving DecidableEq, Repr

/-- A capability option descriptor (`ConnectionOption` from vscode-mssql).
`valueType` is kept as the raw string so that unrecognized kinds can be
represented. -/
structure ConnectionOption where
  name : String
  displayName : String
  description : String
  isRequired : Bool
  valueType : String
  groupName : String
  categoryValues : List CategoryValue
deriving DecidableEq, Repr

/-- The fields of a form component that `convertToFormComponent` fills in
for a recognized value-kind. -/
structure ConvertedComponent where
  propertyName : String
  label : String
  required : Bool
  type : FormItemType
  tooltip : String
  options : Option (List FormItemOptions)
deriving DecidableEq, Repr

/-- `convertToFormComponent(connOption)`: maps a capability value-kind to
a form-item spec.  For an unrecognized value-kind the switch hits the
`default` branch, which only logs and emits telemetry, and the function
falls off its end returning `undefined` (`none`): it does not throw. -/
def convertToFormComponent (connOption : ConnectionOption) : Option ConvertedComponent :=
  match connOption.valueType with
  | "boolean" => some
      { propertyName := connOption.name
        label := connOption.displayName
        required := connOption.isRequired
        type := .Checkbox
        tooltip := connOption.description
        options := none }
  | "string" => some
      { propertyName := connOption.name
        label := connOption.displayName
        required := connOption.isRequired
        type := .Input
        tooltip := connOption.description
        options := none }
  | "password" => some
      { propertyName := connOption.name
        label := connOption.displayName
        required := connOption.isRequired
        type := .Password
        tooltip := connOption.description
        options := none }
  | "number" => some
      { propertyName := connOption.name
        label := connOption.displayName
        required := connOption.isRequired
        type := .Input
        tooltip := connOption.description
        options := none }
  | "category" => some
      { propertyName := connOption.name
        label := connOption.displayName
        required := connOption.isRequired
        type := .Dropdown
        tooltip := connOption.description
        options := some (connOption.categoryValues.map (fun v =>
          { displayName := v.displayName.getD v.name, value := v.name })) }
  | _ => none

/-- The diagnostics (log line plus telemetry error event, carrying the
same message) emitted by `convertToFormComponent` for one descriptor:
exactly one for an unrecognized value-kind, none otherwise. -/
def convertToFormComponentDiagnostics (connOption : ConnectionOption) : List String :=
  match convertToFormComponent connOption with
  | some _ => []
  | none => ["Unhandled connection option type: " ++ connOption.valueType]

/-- `this._mainOptionNames` (a `Set`; only membership is used). -/
def mainOptionNames : List String :=
  ["server", "authenticationType", "user", "password", "savePassword",
   "accountId", "tenantId", "database", "trustServerCertificate", "encrypt",
   "profileName"]

/-- The entry stored for one descriptor by the compilation loop of
`generateConnectionComponents`: the spread of `convertToFormComponent`'s
result (an empty spread when that returned `undefined`) plus the
advanced-option flag and category metadata. -/
def compiledEntry (groupNames : List (String × String)) (option : ConnectionOption) :
    ConnDialogFormItemSpec :=
  let base := convertToFormComponent option
  { propertyName := base.map (fun b => b.propertyName)
    label := base.map (fun b => b.label)
    required := base.map (fun b => b.required)
    type := base.map (fun b => b.type)
    tooltip := base.map (fun b => b.tooltip)
    options := base.bind (fun b => b.options)
    placeholder := none
    actionButtons := none
    isAdvancedOption := !(mainOptionNames.contains option.name)
    optionCategory := some option.groupName
    optionCategoryLabel := some ((objGet groupNames option.groupName).getD option.groupName)
    hidden := none
    validate := none
    validation := none }

/-- The `for` loop of `generateConnectionComponents` (lines 677–702):
stores an entry for every descriptor, keyed by its name.  Nothing in the
loop body throws, so the surrounding `try`/`catch` never fires. -/
def compileConnectionOptions (connectionOptions : List ConnectionOption)
    (groupNames : List (String × String)) : Components :=
  connectionOptions.foldl
    (fun result option => objSet result option.name (compiledEntry groupNames option))
    []

/-- The diagnostics emitted while compiling a descriptor list: one per
unrecognized value-kind, in descriptor order. -/
def compileDiagnostics (connectionOptions : List ConnectionOption) : List String :=
  connectionOptions.foldl
    (fun acc option => acc ++ convertToFormComponentDiagnostics option) []

end MssqlDialog

namespace MssqlDialog

/-- `completeFormComponents(components)`: appends the fixed built-in
fields (profile name, save-password, account id, tenant id, connection
string) and attaches the hard-coded validators to the `server` and `user`
entries.  The last two are property accesses on `components["server"]` /
`components["user"]`, which throw when the entry is absent; that is
modelled with `Except`.  The account dropdown's options and action
buttons come from collaborator calls and are passed in. -/
def completeFormComponents (accountOptions : List FormItemOptions)
    (accountButtons : List FormItemActionButton) (components : Components) :
    Except Unit Components :=
  let c1 := objSet components "profileName"
    { propertyName := some "profileName", label := some "profileName"
      required := some false, type := some .Input, isAdvancedOption := false }
  let c2 := objSet c1 "savePassword"
    { propertyName := some "savePassword", label := some "savePassword"
      required := some false, type := some .Checkbox, isAdvancedOption := false }
  let c3 := objSet c2 "accountId"
    { propertyName := some "accountId", label := some "azureAccount"
      required := some true, type := some .Dropdown
      options := some accountOptions, placeholder := some "selectAnAccount"
      actionButtons := some accountButtons
      validate := some .accountIdRequired, isAdvancedOption := false }
  let c4 := objSet c3 "tenantId"
    { propertyName := some "tenantId", label := some "tenantId"
      required := some true, type := some .Dropdown
      options := some [], hidden := some true
      placeholder := some "selectATenant"
      validate := some .tenantIdRequired, isAdvancedOption := false }
  let c5 := objSet c4 "connectionString"
    { propertyName := some "connectionString", label := some "connectionString"
      required := some true, type := some .TextArea
      validate := some .connectionStringRequired, isAdvancedOption := false }
  match objGet c5 "server" with
  | none => Except.error ()
  | some serverSpec =>
    let c6 := objSet c5 "server" { serverSpec with validate := some .serverRequired }
    match objGet c6 "user" with
    | none => Except.error ()
    | some userSpec =>
      Except.ok (objSet c6 "user" { userSpec with validate := some .usernameRequired })

/-- `generateConnectionComponents`: compiles the remote descriptors and
then completes the map with the built-in fields. -/
def generateConnectionComponents (connectionOptions : List ConnectionOption)
    (groupNames : List (String × String)) (accountOptions : List FormItemOptions)
    (accountButtons : List FormItemActionButton) : Except Unit Components :=
  completeFormComponents accountOptions accountButtons
    (compileConnectionOptions connectionOptions groupNames)

/-- `ConnectionComponentGroup`: one group of advanced options.  Both
fields are read off a component whose own fields may be `undefined`, so
they are `Option`-valued. -/
structure ConnectionComponentGroup where
  groupName : Option String
  options : List (Option String)
deriving DecidableEq, Repr

/-- `ConnectionComponentsInfo`: the compiled component map plus the two
explicit buckets. -/
structure ConnectionComponentsInfo where
  components : Components
  mainOptions : List String
  topAdvancedOptions : List String
deriving DecidableEq, Repr

/-- Membership of a possibly-`undefined` property name in a name list
(`list.includes(x)`; `includes(undefined)` is `false` for these lists). -/
def optNameMem (l : List String) : Option String → Bool
  | none => false
  | some n => l.contains n

/-- The seed keys of the grouping map, in their fixed display order. -/
def seedGroupKeys : List (Option String) :=
  [some "security", some "initialization", some "resiliency", some "pooling",
   some "context"]

/-- The advanced options considered by `groupAdvancedOptions`: flagged
advanced and in neither the main nor the top-advanced bucket, in
component insertion order. -/
def optionsToGroup (componentsInfo : ConnectionComponentsInfo) :
    List ConnDialogFormItemSpec :=
  (objValues componentsInfo.components).filter (fun c =>
    c.isAdvancedOption
      && !(optNameMem componentsInfo.mainOptions c.propertyName)
      && !(optNameMem componentsInfo.topAdvancedOptions c.propertyName))

/-- One step of the grouping loop.  The source tests
`!groupMap.has(cat) || groupMap.get(cat) === undefined`, i.e. everything
except a present, initialized group starts a fresh group; a present group
has the option's name pushed onto it (`Map.set` keeps the key's original
position). -/
def groupStep (gm : List (Option String × Option ConnectionComponentGroup))
    (option : ConnDialogFormItemSpec) :
    List (Option String × Option ConnectionComponentGroup) :=
  match objGet gm option.optionCategory with
  | some (some g) =>
      objSet gm option.optionCategory
        (some { g with options := g.options ++ [option.propertyName] })
  | _ =>
      objSet gm option.optionCategory
        (some { groupName := option.optionCategoryLabel
                options := [option.propertyName] })

/-- `groupAdvancedOptions(componentsInfo)`: seeds the map with the five
well-known category ids bound to `undefined`, folds the considered
options through `groupStep`, and returns `Array.from(groupMap.values())`
— which still contains `undefined` for seeded categories that received no
member. -/
def groupAdvancedOptions (componentsInfo : ConnectionComponentsInfo) :
    List (Option ConnectionComponentGroup) :=
  let seeded : List (Option String × Option ConnectionComponentGroup) :=
    seedGroupKeys.map (fun k => (k, none))
  objValues ((optionsToGroup componentsInfo).foldl groupStep seeded)

/-- First-occurrence order of a list's elements (used to state what
"appended in encounter order" means). -/
def encounterOrder {β : Type} [DecidableEq β] (l : List β) : List β :=
  l.foldl (fun acc a => if a ∈ acc then acc else acc ++ [a]) []

/-- The category keys of the final grouping map, in order: the five seed
keys first, then the remaining categories in encounter order. -/
def advancedCategoryOrder (opts : List ConnDialogFormItemSpec) : List (Option String) :=
  seedGroupKeys
    ++ (encounterOrder (opts.map (fun o => o.optionCategory))).filter
        (fun c => ¬seedGroupKeys.contains c)

/-- The group built for one category, predicted directly from the
considered options: `none` when the category has no member, otherwise the
first member's category label plus all member names in encounter order. -/
def groupFor (opts : List ConnDialogFormItemSpec) (cat : Option String) :
    Option ConnectionComponentGroup :=
  match opts.filter (fun o => o.optionCategory = cat) with
  | [] => none
  | o :: rest =>
      some { groupName := o.optionCategoryLabel
             options := (o :: rest).map (fun m => m.propertyName) }

/-- Declarative description of `groupAdvancedOptions`, written from the
spec's words: group the considered advanced fields by category id, seed
categories first in their fixed order, other categories appended in
encounter order, each populated group carrying the first member's display
label and its member names in encounter order. -/
def groupAdvancedOptionsSpec (componentsInfo : ConnectionComponentsInfo) :
    List (Option ConnectionComponentGroup) :=
  (advancedCategoryOrder (optionsToGroup componentsInfo)).map
    (groupFor (optionsToGroup componentsInfo))

end MssqlDialog

namespace MssqlDialog

/-- JS truthiness of a possibly-absent string (`undefined` and `""` are
falsy). -/
def strTruthy : Option String → Bool
  | none => false
  | some s => s ≠ ""

/-- An Azure tenant record (`ITenant` from models/contracts/azure). -/
structure ITenant where
  id : String
  displayName : String
deriving DecidableEq, Repr

/-- `account.displayInfo` (the fields this controller reads). -/
structure AccountDisplayInfo where
  displayName : String
  userId : String
deriving DecidableEq, Repr

/-- An identity-provider account (`IAccount`): `displayInfo` and
`properties.tenants` may each be absent. -/
structure IAccount where
  displayInfo : Option AccountDisplayInfo
  tenants : Option (List ITenant)
deriving DecidableEq, Repr

/-- `getTenants(accountId)`: finds the account whose
`displayInfo?.userId` strictly equals the given account id, and maps its
tenants to dropdown options.  A missing account, missing tenant list, or
a thrown collaborator error (the `catch` branch, modelled by
`Except.error`) all yield the empty list. -/
def getTenants (accountsResult : Except Unit (List IAccount))
    (accountId : Option String) : List FormItemOptions :=
  match accountsResult with
  | .error _ => []
  | .ok accounts =>
    match accounts.find? (fun a => a.displayInfo.map (fun d => d.userId) = accountId) with
    | none => []
    | some account =>
      match account.tenants with
      | none => []
      | some tenants =>
          tenants.map (fun t => { displayName := t.displayName, value := t.id })

/-- The `hiddenProperties` list built by `updateItemVisibility`: empty
unless the input mode is Parameters or AzureBrowse. -/
def hiddenPropertiesFor (mode : ConnectionInputMode) (auth : Option AuthenticationType)
    (tenants : List FormItemOptions) : List String :=
  if mode = .Parameters ∨ mode = .AzureBrowse then
    (if auth ≠ some .SqlLogin then ["user", "password", "savePassword"] else [])
      ++ (if auth ≠ some .AzureMFA then ["accountId", "tenantId"] else [])
      ++ (if auth = some .AzureMFA ∧ tenants.length = 1 then ["tenantId"] else [])
  else []

/-- `updateItemVisibility()`: recomputes `hidden` on every component from
the current input mode, the profile's authentication type, and (for the
Azure-MFA single-tenant rule) the tenant lookup for the profile's current
account id. -/
def updateItemVisibility (mode : ConnectionInputMode) (p : Profile)
    (accountsResult : Except Unit (List IAccount)) (components : Components) :
    Components :=
  let hiddenProperties :=
    hiddenPropertiesFor mode (profAuthType p)
      (getTenants accountsResult (profString p "accountId"))
  components.map (fun e =>
    (e.1, { e.2 with hidden := some (optNameMem hiddenProperties e.2.propertyName) }))

/-- `getActiveFormComponents()`: the active field-name set for the
current input mode. -/
def getActiveFormComponents (mode : ConnectionInputMode) (mainOptions : List String) :
    List String :=
  if mode = .Parameters ∨ mode = .AzureBrowse then mainOptions
  else ["connectionString", "profileName"]

/-- `getFormComponent(propertyName)`: the component for a property, only
when that property belongs to the active field set. -/
def getFormComponent (mode : ConnectionInputMode) (mainOptions : List String)
    (components : Components) (propertyName : String) :
    Option ConnDialogFormItemSpec :=
  if (getActiveFormComponents mode mainOptions).contains propertyName then
    objGet components propertyName
  else none

/-- The value handed to a component's validator:
`connectionProfile[component.propertyName]` (a `propertyName` of
`undefined` reads a key that is never set, yielding `undefined`). -/
def validedValue (p : Profile) (c : ConnDialogFormItemSpec) : Option FieldValue :=
  match c.propertyName with
  | some n => (objGet p n).join
  | none => none

/-- One iteration of the whole-form `forEach` in
`validateConnectionProfile`: a hidden component is forced valid with an
empty message (its validator is not invoked); a visible component with a
validator stores that validator's result and, when invalid, contributes
its property name to `erroredInputs`; a visible component without a
validator is left untouched.  A name whose component is missing would
make the source throw on the `c.hidden` access (`Except.error`).  The
third accumulator records which components' validators were invoked. -/
def validateFormStep (ctx : ValidatorCtx) (p : Profile)
    (acc : Components × List (Option String) × List String) (name : String) :
    Except Unit (Components × List (Option String) × List String) :=
  match objGet acc.1 name with
  | none => Except.error ()
  | some c =>
    if c.hidden.getD false then
      Except.ok (objSet acc.1 name
        { c with validation := some { isValid := true, validationMessage := "" } },
        acc.2.1, acc.2.2)
    else
      match c.validate with
      | none => Except.ok acc
      | some v =>
        let res := runValidator ctx v (validedValue p c)
        let comps := objSet acc.1 name { c with validation := some res }
        if !res.isValid then
          Except.ok (comps, acc.2.1 ++ [c.propertyName], acc.2.2 ++ [name])
        else
          Except.ok (comps, acc.2.1, acc.2.2 ++ [name])

/-- The whole-form loop over the active field names. -/
def validateFormLoop (ctx : ValidatorCtx) (p : Profile)
    (acc : Components × List (Option String) × List String) :
    List String → Except Unit (Components × List (Option String) × List String)
  | [] => Except.ok acc
  | name :: rest =>
    match validateFormStep ctx p acc name with
    | Except.error e => Except.error e
    | Except.ok acc' => validateFormLoop ctx p acc' rest

/-- `validateConnectionProfile(connectionProfile)` with no property name
(whole-form mode): iterates the active field set and returns the
`erroredInputs` list, together with the updated component map and the
instrumented list of validator invocations. -/
def validateConnectionProfile (ctx : ValidatorCtx) (mode : ConnectionInputMode)
    (mainOptions : List String) (components : Components) (p : Profile) :
    Except Unit (List (Option String) × Components × List String) :=
  match validateFormLoop ctx p (components, [], [])
      (getActiveFormComponents mode mainOptions) with
  | Except.error e => Except.error e
  | Except.ok (comps, errored, invoked) => Except.ok (errored, comps, invoked)

/-- The loop of `clearFormError()`: sets `validation = undefined` on
every active component (throwing when an active name has no component). -/
def clearValidationLoop (comps : Components) :
    List String → Except Unit Components
  | [] => Except.ok comps
  | name :: rest =>
    match objGet comps name with
    | none => Except.error ()
    | some c => clearValidationLoop (objSet comps name { c with validation := none }) rest

/-- One step of `cleanConnection`'s hidden-field loop: clear the value of
a field whose component is currently hidden (a hidden component with an
`undefined` property name writes the literal key `"undefined"`, as JS
property keys are strings). -/
def clearHiddenStep (acc : Profile) (option : ConnDialogFormItemSpec) : Profile :=
  if option.hidden.getD false then
    objSet acc (option.propertyName.getD "undefined") none
  else acc

/-- The key set cleared by the hidden-field loop of `cleanConnection`. -/
def hiddenKeyList (specs : List ConnDialogFormItemSpec) : List String :=
  (specs.filter (fun o => o.hidden.getD false)).map
    (fun o => o.propertyName.getD "undefined")

/-- The per-entry transform of `cleanConnection`'s ConnectionString
branch: zero every key except `connectionString` and `profileName`. -/
def csModeZero (e : String × Option FieldValue) : String × Option FieldValue :=
  if e.1 ≠ "connectionString" ∧ e.1 ≠ "profileName" then (e.1, none) else e

/-- `cleanConnection(connection)`: clears every field whose component is
currently hidden; then clears the connection string in
Parameters/AzureBrowse mode, or every key except `connectionString` and
`profileName` in ConnectionString mode. -/
def cleanConnection (mode : ConnectionInputMode) (components : Components)
    (connection : Profile) : Profile :=
  let p1 := (objValues components).foldl clearHiddenStep connection
  if mode = .Parameters ∨ mode = .AzureBrowse then
    objSet p1 "connectionString" none
  else if mode = .ConnectionString then
    p1.map csModeZero
  else p1

end MssqlDialog

namespace MssqlDialog

/-- A tenant entry carried by the add-firewall-rule dialog props. -/
structure TenantEntry where
  name : String
  id : String
deriving DecidableEq, Repr

/-- The active recovery dialog (`state.dialog`): trust-certificate or
add-firewall-rule. -/
inductive DialogProps
  | trustServerCert (message : Option String)
  | addFirewallRule (message : Option String) (clientIp : Option String)
      (tenants : List TenantEntry)
deriving DecidableEq, Repr

/-- The slice of `ConnectionDialogWebviewState` that the connect flow and
the recovery reducers touch. -/
structure DialogState where
  connectionProfile : Profile
  selectedInputMode : ConnectionInputMode
  mainOptions : List String
  topAdvancedOptions : List String
  components : Components
  connectionStatus : ApiStatus
  formError : Option String
  dialog : Option DialogProps
deriving DecidableEq, Repr

/-- The validator context captured from the live state. -/
def stateValidatorCtx (st : DialogState) : ValidatorCtx :=
  { stateAuthType := profAuthType st.connectionProfile
    stateInputMode := st.selectedInputMode }

/-- Modelled from the spec: the two error-code constants from
`connectionConstants` (that file is not among the embedded sources).
Code A is the certificate-validation failure, code B the Azure firewall
block; the orchestration only relies on the two being distinct. -/
def connectionCertValidationFailedErrorCode : Int := -2146893019

/-- Modelled from the spec: the firewall-block error code (code B); see
`connectionCertValidationFailedErrorCode`. -/
def connectionFirewallErrorCode : Int := 40615

/-- `ConnectionCompleteParams`: the slice the dialog reads from the
remote validate-and-save response. -/
structure ConnectionCompleteParams where
  errorNumber : Option Int
  errorMessage : Option String
deriving DecidableEq, Repr

/-- `firewallService.handleFirewallRule(...)` response: whether the
client IP could be detected, and the detected address. -/
structure FirewallHandleResult where
  result : Bool
  ipAddress : Option String
deriving DecidableEq, Repr

/-- A tenant as returned by the signed-in identity
(`auth.getTenants()`). -/
structure AzureTenant where
  displayName : String
  tenantId : String
deriving DecidableEq, Repr

/-- `handleConnectionErrorCodes(result, state)`: classifies a failed
remote connect attempt.  The firewall-handling collaborator's response
and the signed-in identity's tenant list are collaborator results passed
in. -/
def handleConnectionErrorCodes (result : ConnectionCompleteParams)
    (firewallResult : FirewallHandleResult) (azureTenants : List AzureTenant)
    (st : DialogState) : DialogState :=
  if result.errorNumber = some connectionCertValidationFailedErrorCode then
    { st with connectionStatus := ApiStatus.Error
              dialog := some (DialogProps.trustServerCert result.errorMessage) }
  else if result.errorNumber = some connectionFirewallErrorCode then
    let fw :=
      if !firewallResult.result then
        { firewallResult with ipAddress := some "0.0.0.0" }
      else firewallResult
    { st with connectionStatus := ApiStatus.Error
              dialog := some (DialogProps.addFirewallRule result.errorMessage fw.ipAddress
                (azureTenants.map (fun t => { name := t.displayName, id := t.tenantId }))) }
  else
    { st with formError := result.errorMessage
              connectionStatus := ApiStatus.Error }

/-- Outcome of the awaited remote validate-and-save call: either the call
itself threw, or it completed with a response. -/
inductive RemoteOutcome
  | threw (message : String)
  | completed (result : ConnectionCompleteParams)
deriving DecidableEq, Repr

/-- The observable result of one `connectHelper` run: the final state,
the sequence of values assigned to `connectionStatus`, whether the remote
validate-and-save collaborator was invoked, the `erroredInputs` list of
the whole-form validation, and the cleaned profile that validation ran
on. -/
structure ConnectAttempt where
  state : DialogState
  statusTrace : List ApiStatus
  remoteCalled : Bool
  erroredInputs : List (Option String)
  cleanedProfile : Profile
deriving DecidableEq, Repr

/-- `connectHelper(state)`: clear the previous form error and validation
marks, set status Loading, deep-copy and clean the profile, run
whole-form validation on the cleaned copy, and stop with status Error
when any input is invalid (no remote call); otherwise invoke the remote
validate-and-save collaborator and classify its outcome.  The success
path's persistence and tree-reveal effects are collaborator calls outside
this model; it ends with status Loaded. -/
def connectHelper (st : DialogState) (remoteOutcome : RemoteOutcome)
    (firewallResult : FirewallHandleResult) (azureTenants : List AzureTenant) :
    Except Unit ConnectAttempt :=
  match clearValidationLoop st.components
      (getActiveFormComponents st.selectedInputMode st.mainOptions) with
  | Except.error e => Except.error e
  | Except.ok comps0 =>
    let st0 := { st with formError := some ""
                         components := comps0
                         connectionStatus := ApiStatus.Loading }
    let cleanedConnection :=
      cleanConnection st.selectedInputMode comps0 st.connectionProfile
    match validateConnectionProfile (stateValidatorCtx st) st.selectedInputMode
        st.mainOptions comps0 cleanedConnection with
    | Except.error e => Except.error e
    | Except.ok (erroredInputs, comps1, _invoked) =>
      let st1 := { st0 with components := comps1 }
      if erroredInputs.length > 0 then
        Except.ok
          { state := { st1 with connectionStatus := ApiStatus.Error }
            statusTrace := [ApiStatus.Loading, ApiStatus.Error]
            remoteCalled := false
            erroredInputs := erroredInputs
            cleanedProfile := cleanedConnection }
      else
        match remoteOutcome with
        | RemoteOutcome.threw msg =>
          Except.ok
            { state := { st1 with formError := some msg
                                  connectionStatus := ApiStatus.Error }
              statusTrace := [ApiStatus.Loading, ApiStatus.Error]
              remoteCalled := true
              erroredInputs := erroredInputs
              cleanedProfile := cleanedConnection }
        | RemoteOutcome.completed result =>
          if strTruthy result.errorMessage then
            let st2 := handleConnectionErrorCodes result firewallResult azureTenants st1
            Except.ok
              { state := st2
                statusTrace := [ApiStatus.Loading, st2.connectionStatus]
                remoteCalled := true
                erroredInputs := erroredInputs
                cleanedProfile := cleanedConnection }
          else
            Except.ok
              { state := { st1 with connectionStatus := ApiStatus.Loaded }
                statusTrace := [ApiStatus.Loading, ApiStatus.Loaded]
                remoteCalled := true
                erroredInputs := erroredInputs
                cleanedProfile := cleanedConnection }

/-- The `ip` payload of the add-firewall-rule action: a single address or
an explicit range. -/
inductive FirewallIpPayload
  | single (ip : String)
  | range (startIp : String) (endIp : String)
deriving DecidableEq, Repr

/-- The payload of the add-firewall-rule action. -/
structure AddFirewallRulePayload where
  name : String
  ip : FirewallIpPayload
  tenantId : String
deriving DecidableEq, Repr

/-- `firewallService.createFirewallRule(...)` response. -/
structure CreateFirewallRuleResult where
  result : Bool
  errorMessage : Option String
deriving DecidableEq, Repr

/-- The start/end addresses derived from the `ip` payload (a plain
string means a single-address range). -/
def firewallStartEndIp (ip : FirewallIpPayload) : String × String :=
  match ip with
  | FirewallIpPayload.single ip => (ip, ip)
  | FirewallIpPayload.range s e => (s, e)

/-- The rule description interpolated into the firewall form-error
message. -/
def firewallRuleDescription (payload : AddFirewallRulePayload) : String :=
  payload.name ++ " (" ++ (firewallStartEndIp payload.ip).1 ++ " - "
    ++ (firewallStartEndIp payload.ip).2 ++ ")"

/-- The `addFirewallRule` reducer: derives the start/end addresses,
builds the scoped identity/token context (`constructAzureAccountForTenant`,
a collaborator call that may throw), then calls the firewall-rule
creation collaborator.  Returns the updated state and whether the connect
flow was re-invoked (`connectHelper`).  On a thrown identity
construction the reducer surfaces the error, clears the dialog and
returns early — without retrying connect. -/
def addFirewallRuleReducer (payload : AddFirewallRulePayload)
    (constructResult : Except String Unit)
    (createResult : CreateFirewallRuleResult)
    (st : DialogState) : DialogState × Bool :=
  let ruleDescription := firewallRuleDescription payload
  match constructResult with
  | Except.error err =>
      ({ st with formError := some ("errorCreatingFirewallRule: " ++ ruleDescription
                    ++ ": " ++ err)
                 dialog := none }, false)
  | Except.ok _ =>
      let st1 :=
        if !createResult.result then
          { st with formError := some ("errorCreatingFirewallRule: " ++ ruleDescription
                        ++ ": " ++ (createResult.errorMessage.getD "")) }
        else st
      ({ st1 with dialog := none }, true)

end MssqlDialog

namespace MssqlDialog

/-- The `find` over accounts in `getAzureActionButtons` and the
`refreshToken` callback: `account.displayInfo.userId` is read without
optional chaining, so an account with no `displayInfo` makes the
predicate throw. -/
def findAccountByUserId : List IAccount → String → Except Unit (Option IAccount)
  | [], _ => Except.ok none
  | a :: rest, userId =>
    match a.displayInfo with
    | none => Except.error ()
    | some d =>
      if d.userId = userId then Except.ok (some a)
      else findAccountByUserId rest userId

/-- `getAzureActionButtons()`: always starts with the sign-in button;
when auth mode is Azure-MFA and an account id is set, it resolves the
account, fetches a security token (`tokenResult`, `Except.error` when the
collaborator throws, otherwise whether `AzureController.isTokenInValid`
judged the cached token expired) and appends the refresh-token button
exactly when the token is expired. -/
def getAzureActionButtons (auth : Option AuthenticationType)
    (accountId : Option String) (accountsResult : Except Unit (List IAccount))
    (tokenResult : Except Unit Bool) : Except Unit (List FormItemActionButton) :=
  let actionButtons : List FormItemActionButton :=
    [{ label := "signIn", id := "azureSignIn" }]
  if auth = some AuthenticationType.AzureMFA ∧ strTruthy accountId then
    match accountsResult with
    | Except.error e => Except.error e
    | Except.ok accounts =>
      match findAccountByUserId accounts (accountId.getD "") with
      | Except.error e => Except.error e
      | Except.ok none => Except.ok actionButtons
      | Except.ok (some _) =>
        match tokenResult with
        | Except.error e => Except.error e
        | Except.ok isTokenExpired =>
          if isTokenExpired then
            Except.ok (actionButtons ++ [{ label := "refreshTokenLabel", id := "refreshToken" }])
          else Except.ok actionButtons
  else Except.ok actionButtons

/-- `handleAzureMFAEdits(propertyName)`: reacts to edits of `accountId`,
`tenantId` or `authenticationType` while auth mode is Azure-MFA.  On an
`accountId` edit it re-fetches tenants for the current account,
auto-selects the first tenant when the list is non-empty, and rebuilds
the account component's action buttons; on `authenticationType` it first
auto-selects the first account option; on `tenantId` the switch case is
an empty `break`.  Any other property, or a non-MFA auth mode, leaves the
state untouched.  Accesses on a missing account component
(`accountComponent.actionButtons`, `accountComponent.options`) throw. -/
def handleAzureMFAEdits (propertyName : String) (st : DialogState)
    (accountsResult : Except Unit (List IAccount)) (tokenResult : Except Unit Bool) :
    Except Unit DialogState :=
  if ["accountId", "tenantId", "authenticationType"].contains propertyName then
    if profAuthType st.connectionProfile ≠ some AuthenticationType.AzureMFA then
      Except.ok st
    else
      let accountComponent :=
        getFormComponent st.selectedInputMode st.mainOptions st.components "accountId"
      let tenantComponent :=
        getFormComponent st.selectedInputMode st.mainOptions st.components "tenantId"
      if propertyName = "accountId" then
        let tenants :=
          getTenants accountsResult (profString st.connectionProfile "accountId")
        let comps1 :=
          match tenantComponent with
          | some tc => objSet st.components "tenantId" { tc with options := some tenants }
          | none => st.components
        let prof1 :=
          match tenantComponent with
          | some _ =>
            match tenants with
            | t :: _ => objSet st.connectionProfile "tenantId" (some (FieldValue.str t.value))
            | [] => st.connectionProfile
          | none => st.connectionProfile
        match accountComponent with
        | none => Except.error ()
        | some ac =>
          match getAzureActionButtons (profAuthType prof1) (profString prof1 "accountId")
              accountsResult tokenResult with
          | Except.error e => Except.error e
          | Except.ok buttons =>
            Except.ok { st with
              components := objSet comps1 "accountId" { ac with actionButtons := some buttons }
              connectionProfile := prof1 }
      else if propertyName = "tenantId" then Except.ok st
      else
        match accountComponent with
        | none => Except.error ()
        | some ac =>
          match ac.options with
          | none => Except.error ()
          | some accountOptions =>
            let prof1 :=
              match accountOptions with
              | firstOption :: _ =>
                objSet st.connectionProfile "accountId" (some (FieldValue.str firstOption.value))
              | [] => st.connectionProfile
            let tenants := getTenants accountsResult (profString prof1 "accountId")
            let comps1 :=
              match tenantComponent with
              | some tc => objSet st.components "tenantId" { tc with options := some tenants }
              | none => st.components
            let prof2 :=
              match tenantComponent with
              | some _ =>
                match tenants with
                | t :: _ => objSet prof1 "tenantId" (some (FieldValue.str t.value))
                | [] => prof1
              | none => prof1
            match getAzureActionButtons (profAuthType prof2) (profString prof2 "accountId")
                accountsResult tokenResult with
            | Except.error e => Except.error e
            | Except.ok buttons =>
              Except.ok { st with
                components := objSet comps1 "accountId" { ac with actionButtons := some buttons }
                connectionProfile := prof2 }
  else Except.ok st

end MssqlDialog

namespace ExtConfigModel

theorem getExtensionConfig_undef_default (c : ExtConfig) (key : String) :
    getExtensionConfig c key JsVal.undef = c.extensionConfig key := by
  unfold getExtensionConfig
  by_cases h : c.extensionConfig key = JsVal.undef
  · simp [h]
  · simp [h]

/-- C10: for every configuration key, `getSqlToolsConfigValue` returns
the extension-configuration value under the derived key when that value
is truthy and falls back to the bundled `Config` value whenever it is
falsy (`undefined`, `null`, `""`, `false`, or `0`); by contrast
`getExtensionConfig` and `getWorkspaceConfig` substitute the
caller-supplied default only when the stored value is strictly
`undefined`, so a stored `null` or empty string is returned unchanged. -/
theorem claimC10_extConfig_value_resolution (c : ExtConfig) (key : String) (d : JsVal) :
    (∀ v : JsVal, v.truthy = false ↔
      (v = JsVal.undef ∨ v = JsVal.null ∨ v = JsVal.str "" ∨ v = JsVal.boolean false
        ∨ v = JsVal.num 0))
    ∧ ((c.extensionConfig (sqlToolsKey key)).truthy = true →
        getSqlToolsConfigValue c key = c.extensionConfig (sqlToolsKey key))
    ∧ ((c.extensionConfig (sqlToolsKey key)).truthy = false →
        getSqlToolsConfigValue c key = c.bundledConfig key)
    ∧ (c.extensionConfig key ≠ JsVal.undef →
        getExtensionConfig c key d = c.extensionConfig key)
    ∧ (c.extensionConfig key = JsVal.undef → getExtensionConfig c key d = d)
    ∧ (c.workspaceConfig key ≠ JsVal.undef →
        getWorkspaceConfig c key d = c.workspaceConfig key)
    ∧ (c.workspaceConfig key = JsVal.undef → getWorkspaceConfig c key d = d) := by
  refine ⟨?_, ?_, ?_, ?_, ?_, ?_, ?_⟩
  · intro v
    cases v <;> simp [JsVal.truthy]
  · intro h
    unfold getSqlToolsConfigValue
    rw [getExtensionConfig_undef_default]
    simp [h]
  · intro h
    unfold getSqlToolsConfigValue
    rw [getExtensionConfig_undef_default]
    simp [h]
  · intro h
    unfold getExtensionConfig
    simp [h]
  · intro h
    unfold getExtensionConfig
    simp [h]
  · intro h
    unfold getWorkspaceConfig
    simp [h]
  · intro h
    unfold getWorkspaceConfig
    simp [h]

/-- Witness for C10: a stored `null` under the service key is falsy, so
the bundled value is returned; a stored `null` under a plain key is
returned unchanged by `getExtensionConfig` even with a default
supplied. -/
theorem claimC10_extConfig_value_resolution_witness :
    getSqlToolsConfigValue
        { extensionConfig := fun _ => JsVal.null
          workspaceConfig := fun _ => JsVal.null
          bundledConfig := fun _ => JsVal.str "bundled" } "k"
      = JsVal.str "bundled"
    ∧ getExtensionConfig
        { extensionConfig := fun _ => JsVal.null
          workspaceConfig := fun _ => JsVal.null
          bundledConfig := fun _ => JsVal.str "bundled" } "k" (JsVal.str "fallback")
      = JsVal.null :=
  ⟨(claimC10_extConfig_value_resolution
      { extensionConfig := fun _ => JsVal.null
        workspaceConfig := fun _ => JsVal.null
        bundledConfig := fun _ => JsVal.str "bundled" } "k" JsVal.undef).2.2.1 (by rfl),
   (claimC10_extConfig_value_resolution
      { extensionConfig := fun _ => JsVal.null
        workspaceConfig := fun _ => JsVal.null
        bundledConfig := fun _ => JsVal.str "bundled" } "k" (JsVal.str "fallback")).2.2.2.1
      (by simp)⟩

end ExtConfigModel

namespace MssqlDialog

theorem objGet_compileLoop (gn : List (String × String)) (opts : List ConnectionOption)
    (acc : Components) (name : String) :
    objGet (opts.foldl (fun r o => objSet r o.name (compiledEntry gn o)) acc) name
      = (match opts.reverse.find? (fun o => o.name = name) with
         | some o => some (compiledEntry gn o)
         | none => objGet acc name) := by
  induction opts generalizing acc with
  | nil => simp
  | cons o rest ih =>
    simp only [List.foldl_cons, List.reverse_cons]
    rw [ih, List.find?_append]
    cases hf : rest.reverse.find? (fun o => o.name = name) with
    | some o' => simp
    | none =>
      simp only [Option.none_or]
      by_cases ho : o.name = name
      · rw [List.find?_cons_of_pos _ (by simpa using ho)]
        simp [← ho, objGet_objSet_same]
      · rw [List.find?_cons_of_neg _ (by simpa using ho)]
        simp [objGet_objSet_ne _ _ _ _ (fun h => ho h.symm)]

theorem compileDiagnostics_eq (opts : List ConnectionOption) :
    compileDiagnostics opts
      = (opts.filter (fun o => (convertToFormComponent o).isNone)).map
          (fun o => "Unhandled connection option type: " ++ o.valueType) := by
  unfold compileDiagnostics
  suffices h : ∀ acc : List String,
      opts.foldl (fun acc o => acc ++ convertToFormComponentDiagnostics o) acc
        = acc ++ (opts.filter (fun o => (convertToFormComponent o).isNone)).map
            (fun o => "Unhandled connection option type: " ++ o.valueType) by
    simpa using h []
  induction opts with
  | nil => intro acc; simp
  | cons o rest ih =>
    intro acc
    simp only [List.foldl_cons, List.filter_cons]
    cases hc : convertToFormComponent o with
    | none =>
      have hd : convertToFormComponentDiagnostics o
          = ["Unhandled connection option type: " ++ o.valueType] := by
        unfold convertToFormComponentDiagnostics
        rw [hc]
      rw [ih, hd]
      simp [hc]
    | some b =>
      have hd : convertToFormComponentDiagnostics o = [] := by
        unfold convertToFormComponentDiagnostics
        rw [hc]
      rw [ih, hd]
      simp [hc]

/-- The descriptor with an unrecognized value-kind used to refute C1's
"omits exactly that field" clause. -/
def weirdOption : ConnectionOption :=
  { name := "weirdOpt", displayName := "Weird", description := "desc"
    isRequired := false, valueType := "weirdKind", groupName := "security"
    categoryValues := [] }

/-- Counterexample for C1: for a descriptor whose value-kind is
unrecognized, the compiled field-spec map does *not* omit the field —
`convertToFormComponent` returns `undefined` and the compilation loop
still stores an entry under the descriptor's name (the spread of
`undefined` plus the advanced/category metadata), so the claimed
omission fails. -/
theorem claimC1_counterexample :
    convertToFormComponent weirdOption = none
    ∧ objGet (compileConnectionOptions [weirdOption] []) "weirdOpt" ≠ none := by
  constructor
  · rfl
  · decide

/-- C1 (amended): for every capability descriptor whose value-kind is
unrecognized, schema compilation does not throw, logs and emits exactly
one diagnostic per such descriptor, and the resulting field-spec map
*contains* an entry for that descriptor whose compiled portion is absent
(property name, label, type and required flag all `undefined`, only the
advanced flag and category metadata set), while all other descriptors
receive normally-compiled specs; every descriptor name is a key of the
map and every entry comes from some descriptor. -/
theorem claimC1_unknown_valueKind_partial_compile (opts : List ConnectionOption)
    (gn : List (String × String)) :
    (∀ name, (objGet (compileConnectionOptions opts gn) name).isSome = true ↔
        name ∈ opts.map (fun o => o.name))
    ∧ (∀ name e, objGet (compileConnectionOptions opts gn) name = some e →
        ∃ o, o ∈ opts ∧ o.name = name ∧ e = compiledEntry gn o)
    ∧ compileDiagnostics opts
        = (opts.filter (fun o => (convertToFormComponent o).isNone)).map
            (fun o => "Unhandled connection option type: " ++ o.valueType)
    ∧ (∀ o : ConnectionOption, convertToFormComponent o = none →
        (compiledEntry gn o).propertyName = none ∧ (compiledEntry gn o).label = none
          ∧ (compiledEntry gn o).type = none ∧ (compiledEntry gn o).required = none
          ∧ (compiledEntry gn o).isAdvancedOption = !(mainOptionNames.contains o.name)
          ∧ (compiledEntry gn o).optionCategory = some o.groupName)
    ∧ (∀ (o : ConnectionOption) (b : ConvertedComponent), convertToFormComponent o = some b →
        (compiledEntry gn o).propertyName = some b.propertyName
          ∧ (compiledEntry gn o).label = some b.label
          ∧ (compiledEntry gn o).type = some b.type
          ∧ (compiledEntry gn o).required = some b.required
          ∧ (compiledEntry gn o).options = b.options
          ∧ (compiledEntry gn o).isAdvancedOption = !(mainOptionNames.contains o.name)
          ∧ (compiledEntry gn o).optionCategory = some o.groupName
          ∧ (compiledEntry gn o).optionCategoryLabel
              = some ((objGet gn o.groupName).getD o.groupName)) := by
  refine ⟨?_, ?_, compileDiagnostics_eq opts, ?_, ?_⟩
  · intro name
    unfold compileConnectionOptions
    rw [objGet_compileLoop]
    cases hf : opts.reverse.find? (fun o => o.name = name) with
    | some o =>
      simp only [Option.isSome_some, true_iff]
      have hmem := List.mem_of_find?_eq_some hf
      have hname := List.find?_some hf
      simp only [decide_eq_true_eq] at hname
      rw [← hname]
      exact List.mem_map_of_mem _ (List.mem_reverse.mp hmem)
    | none =>
      refine ⟨fun h => absurd h (by simp [objGet]), fun hmem => ?_⟩
      rcases List.mem_map.mp hmem with ⟨o, ho, hname⟩
      have hno := List.find?_eq_none.mp hf o (List.mem_reverse.mpr ho)
      simp [hname] at hno
  · intro name e he
    unfold compileConnectionOptions at he
    rw [objGet_compileLoop] at he
    cases hf : opts.reverse.find? (fun o => o.name = name) with
    | some o =>
      rw [hf] at he
      have hmem := List.mem_of_find?_eq_some hf
      have hname := List.find?_some hf
      simp only [decide_eq_true_eq] at hname
      exact ⟨o, List.mem_reverse.mp hmem, hname, by simpa using he.symm⟩
    | none =>
      rw [hf] at he
      simp [objGet] at he
  · intro o ho
    simp [compiledEntry, ho]
  · intro o b hb
    simp [compiledEntry, hb]

/-- Witness for C1 (amended): on a two-descriptor list (one recognized
string option, one unrecognized kind) the map keeps both names, the
unknown one with a degenerate entry, and exactly one diagnostic is
emitted. -/
theorem claimC1_witness :
    ((compiledEntry [] weirdOption).propertyName = none
      ∧ (compiledEntry [] weirdOption).label = none
      ∧ (compiledEntry [] weirdOption).type = none
      ∧ (compiledEntry [] weirdOption).required = none
      ∧ (compiledEntry [] weirdOption).isAdvancedOption
          = !(mainOptionNames.contains weirdOption.name)
      ∧ (compiledEntry [] weirdOption).optionCategory = some weirdOption.groupName)
    ∧ compileDiagnostics [weirdOption]
        = ["Unhandled connection option type: weirdKind"] :=
  ⟨(claimC1_unknown_valueKind_partial_compile [weirdOption] []).2.2.2.1 weirdOption rfl,
   by decide⟩

end MssqlDialog

namespace MssqlDialog

/-- A small concrete dialog state used to instantiate theorems. -/
def sampleDialogState : DialogState :=
  { connectionProfile := [("server", some (FieldValue.str "srv"))]
    selectedInputMode := ConnectionInputMode.Parameters
    mainOptions := ["server"]
    topAdvancedOptions := []
    components := []
    connectionStatus := ApiStatus.NotStarted
    formError := some ""
    dialog := none }

/-- C6: when the remote connect attempt fails with the firewall-block
error code, the orchestrator sets connection status to Error and opens
the add-firewall-rule recovery dialog; its client IP is exactly
`"0.0.0.0"` when the firewall-handling collaborator could not detect the
client IP, and the detected IP otherwise, and its tenant list is the
signed-in identity's tenants. -/
theorem claimC6_firewall_block_recovery (result : ConnectionCompleteParams)
    (firewallResult : FirewallHandleResult) (azureTenants : List AzureTenant)
    (st : DialogState)
    (hcode : result.errorNumber = some connectionFirewallErrorCode) :
    (handleConnectionErrorCodes result firewallResult azureTenants st).connectionStatus
        = ApiStatus.Error
    ∧ (firewallResult.result = false →
        (handleConnectionErrorCodes result firewallResult azureTenants st).dialog
          = some (DialogProps.addFirewallRule result.errorMessage (some "0.0.0.0")
              (azureTenants.map (fun t => { name := t.displayName, id := t.tenantId }))))
    ∧ (firewallResult.result = true →
        (handleConnectionErrorCodes result firewallResult azureTenants st).dialog
          = some (DialogProps.addFirewallRule result.errorMessage firewallResult.ipAddress
              (azureTenants.map (fun t => { name := t.displayName, id := t.tenantId })))) := by
  have hne : ¬(result.errorNumber = some connectionCertValidationFailedErrorCode) := by
    rw [hcode]
    intro h
    injection h with h'
    exact absurd h' (by decide)
  unfold handleConnectionErrorCodes
  rw [if_neg hne, if_pos hcode]
  refine ⟨rfl, ?_, ?_⟩
  · intro hf
    simp [hf]
  · intro hf
    simp [hf]

/-- Witness for C6: a firewall-block response with an undetectable IP
opens the recovery dialog with client IP `"0.0.0.0"` and the identity's
tenants. -/
theorem claimC6_witness :
    (handleConnectionErrorCodes
        { errorNumber := some connectionFirewallErrorCode, errorMessage := some "blocked" }
        { result := false, ipAddress := none }
        [{ displayName := "T1", tenantId := "tid1" }]
        sampleDialogState).connectionStatus = ApiStatus.Error
    ∧ (handleConnectionErrorCodes
        { errorNumber := some connectionFirewallErrorCode, errorMessage := some "blocked" }
        { result := false, ipAddress := none }
        [{ displayName := "T1", tenantId := "tid1" }]
        sampleDialogState).dialog
      = some (DialogProps.addFirewallRule (some "blocked") (some "0.0.0.0")
          [{ name := "T1", id := "tid1" }]) := by
  have h := claimC6_firewall_block_recovery
    { errorNumber := some connectionFirewallErrorCode, errorMessage := some "blocked" }
    { result := false, ipAddress := none }
    [{ displayName := "T1", tenantId := "tid1" }]
    sampleDialogState rfl
  exact ⟨h.1, by simpa using h.2.1 rfl⟩

/-- Counterexample for C7: when the scoped identity/token construction
throws, the reducer clears the dialog and surfaces the error but returns
early — the connect flow is *not* retried, contradicting "whatever the
outcome … the connect flow is retried". -/
theorem claimC7_counterexample :
    (addFirewallRuleReducer
        { name := "rule1", ip := FirewallIpPayload.single "1.2.3.4", tenantId := "tid" }
        (Except.error "token failure")
        { result := true, errorMessage := none }
        sampleDialogState).2 = false
    ∧ (addFirewallRuleReducer
        { name := "rule1", ip := FirewallIpPayload.single "1.2.3.4", tenantId := "tid" }
        (Except.error "token failure")
        { result := true, errorMessage := none }
        sampleDialogState).1.dialog = none := by
  constructor
  · rfl
  · rfl

/-- C7 (amended): for every invocation of the add-firewall-rule action
the active recovery dialog is cleared and any failure is surfaced as a
form-level error string; the connect flow is retried after firewall-rule
creation (whether it failed or succeeded), but *not* when the scoped
identity/token construction threw — that branch returns early. -/
theorem claimC7_addFirewallRule_outcomes (payload : AddFirewallRulePayload)
    (constructResult : Except String Unit) (createResult : CreateFirewallRuleResult)
    (st : DialogState) :
    ((addFirewallRuleReducer payload constructResult createResult st).1.dialog = none)
    ∧ ((addFirewallRuleReducer payload constructResult createResult st).2 = true ↔
        constructResult = Except.ok ())
    ∧ (∀ err, constructResult = Except.error err →
        (addFirewallRuleReducer payload constructResult createResult st).1.formError
          = some ("errorCreatingFirewallRule: " ++ firewallRuleDescription payload
              ++ ": " ++ err))
    ∧ (constructResult = Except.ok () → createResult.result = false →
        (addFirewallRuleReducer payload constructResult createResult st).1.formError
          = some ("errorCreatingFirewallRule: " ++ firewallRuleDescription payload
              ++ ": " ++ createResult.errorMessage.getD ""))
    ∧ (constructResult = Except.ok () → createResult.result = true →
        (addFirewallRuleReducer payload constructResult createResult st).1
          = { st with dialog := none }) := by
  cases constructResult with
  | error err =>
    refine ⟨rfl, by simp [addFirewallRuleReducer], ?_, ?_, ?_⟩
    · intro e he
      injection he with he'
      subst he'
      rfl
    · intro h
      exact absurd h (by simp)
    · intro h
      exact absurd h (by simp)
  | ok u =>
    cases u
    by_cases hc : createResult.result
    · refine ⟨?_, by simp [addFirewallRuleReducer, hc], ?_, ?_, ?_⟩
      · simp [addFirewallRuleReducer, hc]
      · intro e he
        exact absurd he (by simp)
      · intro _ hfalse
        rw [hc] at hfalse
        cases hfalse
      · intro _ _
        simp [addFirewallRuleReducer, hc]
    · have hc' : createResult.result = false := by
        simpa using hc
      refine ⟨?_, by simp [addFirewallRuleReducer, hc'], ?_, ?_, ?_⟩
      · simp [addFirewallRuleReducer, hc']
      · intro e he
        exact absurd he (by simp)
      · intro _ _
        simp [addFirewallRuleReducer, hc']
      · intro _ htrue
        rw [hc'] at htrue
        cases htrue

/-- Witness for C7 (amended): a thrown identity construction at a
concrete payload clears the dialog, surfaces the error, and skips the
retry. -/
theorem claimC7_witness :
    (addFirewallRuleReducer
        { name := "rule1", ip := FirewallIpPayload.range "1.2.3.4" "1.2.3.9", tenantId := "tid" }
        (Except.error "boom")
        { result := true, errorMessage := none }
        sampleDialogState).1.formError
      = some ("errorCreatingFirewallRule: "
          ++ firewallRuleDescription
              { name := "rule1", ip := FirewallIpPayload.range "1.2.3.4" "1.2.3.9", tenantId := "tid" }
          ++ ": " ++ "boom") :=
  (claimC7_addFirewallRule_outcomes
      { name := "rule1", ip := FirewallIpPayload.range "1.2.3.4" "1.2.3.9", tenantId := "tid" }
      (Except.error "boom")
      { result := true, errorMessage := none }
      sampleDialogState).2.2.1 "boom" rfl

end MssqlDialog

namespace MssqlDialog

/-- The hidden-field set claimed by the spec, as a predicate on a
component's property name. -/
def claimedHidden (auth : Option AuthenticationType) (tenantCount : Nat) :
    Option String → Bool
  | none => false
  | some n =>
    decide (((n = "user" ∨ n = "password" ∨ n = "savePassword")
          ∧ auth ≠ some AuthenticationType.SqlLogin)
      ∨ ((n = "accountId" ∨ n = "tenantId") ∧ auth ≠ some AuthenticationType.AzureMFA)
      ∨ (n = "tenantId" ∧ auth = some AuthenticationType.AzureMFA ∧ tenantCount = 1))

theorem hiddenPropertiesFor_mem (mode : ConnectionInputMode)
    (auth : Option AuthenticationType) (tenants : List FormItemOptions) (n : String)
    (hmode : mode = ConnectionInputMode.Parameters ∨ mode = ConnectionInputMode.AzureBrowse) :
    n ∈ hiddenPropertiesFor mode auth tenants ↔
      ((n = "user" ∨ n = "password" ∨ n = "savePassword")
          ∧ auth ≠ some AuthenticationType.SqlLogin)
      ∨ ((n = "accountId" ∨ n = "tenantId") ∧ auth ≠ some AuthenticationType.AzureMFA)
      ∨ (n = "tenantId" ∧ auth = some AuthenticationType.AzureMFA ∧ tenants.length = 1) := by
  unfold hiddenPropertiesFor
  rw [if_pos hmode]
  by_cases h1 : auth = some AuthenticationType.SqlLogin <;>
    by_cases h2 : auth = some AuthenticationType.AzureMFA <;>
      by_cases h3 : tenants.length = 1 <;>
        simp [h1, h2, h3, List.mem_append] <;> tauto

theorem optNameMem_hiddenPropertiesFor (mode : ConnectionInputMode)
    (auth : Option AuthenticationType) (tenants : List FormItemOptions)
    (pn : Option String)
    (hmode : mode = ConnectionInputMode.Parameters ∨ mode = ConnectionInputMode.AzureBrowse) :
    optNameMem (hiddenPropertiesFor mode auth tenants) pn
      = claimedHidden auth tenants.length pn := by
  cases pn with
  | none => rfl
  | some n =>
    show (hiddenPropertiesFor mode auth tenants).contains n = _
    unfold claimedHidden
    rw [Bool.eq_iff_iff]
    rw [List.elem_iff]
    constructor
    · intro h
      exact decide_eq_true ((hiddenPropertiesFor_mem mode auth tenants n hmode).mp h)
    · intro h
      exact (hiddenPropertiesFor_mem mode auth tenants n hmode).mpr (of_decide_eq_true h)

/-- C4: for input mode Parameters or AzureBrowse, recomputing visibility
hides exactly `{user, password, savePassword}` when auth mode is not
SQL-login, `{accountId, tenantId}` when auth mode is not Azure-MFA, and
additionally `tenantId` when auth mode is Azure-MFA and the tenant lookup
for the current account returns exactly one tenant; a failed tenant
lookup yields zero tenants (so `tenantId` stays visible), and every
component not named in these rules ends up with `hidden = some false`. -/
theorem claimC4_updateItemVisibility (mode : ConnectionInputMode) (p : Profile)
    (accountsResult : Except Unit (List IAccount)) (components : Components)
    (hmode : mode = ConnectionInputMode.Parameters ∨ mode = ConnectionInputMode.AzureBrowse) :
    (∀ e ∈ updateItemVisibility mode p accountsResult components,
        e.2.hidden = some (claimedHidden (profAuthType p)
          (getTenants accountsResult (profString p "accountId")).length e.2.propertyName))
    ∧ (∀ accId, getTenants (Except.error ()) accId = []) := by
  constructor
  · intro e he
    unfold updateItemVisibility at he
    rcases List.mem_map.mp he with ⟨e0, _, rfl⟩
    show some (optNameMem _ e0.2.propertyName) = some _
    rw [optNameMem_hiddenPropertiesFor _ _ _ _ hmode]
  · intro accId
    rfl

/-- Witness for C4: with Integrated auth and a failing tenant lookup, the
`user` component comes out hidden in Parameters mode. -/
theorem claimC4_witness :
    (("user", ({ propertyName := some "user", hidden := some true } : ConnDialogFormItemSpec)) : String × ConnDialogFormItemSpec).2.hidden
      = some (claimedHidden
          (profAuthType [("authenticationType", some (FieldValue.auth AuthenticationType.Integrated))])
          (getTenants (Except.error ())
            (profString [("authenticationType", some (FieldValue.auth AuthenticationType.Integrated))] "accountId")).length
          (("user", ({ propertyName := some "user", hidden := some true } : ConnDialogFormItemSpec)) : String × ConnDialogFormItemSpec).2.propertyName) :=
  (claimC4_updateItemVisibility ConnectionInputMode.Parameters
      [("authenticationType", some (FieldValue.auth AuthenticationType.Integrated))]
      (Except.error ())
      [("user", { propertyName := some "user" })]
      (Or.inl rfl)).1
    ("user", { propertyName := some "user", hidden := some true })
    (by decide)

end MssqlDialog

namespace MssqlDialog

theorem mem_objSet {κ α : Type} [DecidableEq κ] {m : List (κ × α)} {k : κ} {v : α}
    {e : κ × α} (he : e ∈ objSet m k v) : e = (k, v) ∨ (e ∈ m ∧ e.1 ≠ k) := by
  unfold objSet at he
  by_cases h : m.any (fun e => e.1 = k)
  · rw [if_pos h] at he
    rcases List.mem_map.mp he with ⟨e0, he0, rfl⟩
    by_cases hk : e0.1 = k
    · left
      simp [hk]
    · right
      simp [hk]
      exact he0
  · rw [if_neg h] at he
    rcases List.mem_append.mp he with he' | he'
    · right
      refine ⟨he', fun hk => ?_⟩
      exact h (List.any_eq_true.mpr ⟨e, he', by simpa using hk⟩)
    · left
      simpa using he'

theorem objSet_entry_eq {κ α : Type} [DecidableEq κ] {m : List (κ × α)} {k : κ} {v : α}
    {e : κ × α} (he : e ∈ objSet m k v) (hk : e.1 = k) : e.2 = v := by
  rcases mem_objSet he with h | h
  · rw [h]
  · exact absurd hk h.2

theorem objSet_any_same {κ α : Type} [DecidableEq κ] (m : List (κ × α)) (k : κ) (v : α) :
    (objSet m k v).any (fun e => e.1 = k) = true := by
  unfold objSet
  by_cases h : m.any (fun e => e.1 = k)
  · rw [if_pos h]
    rcases List.any_eq_true.mp h with ⟨e0, he0, hk⟩
    refine List.any_eq_true.mpr ⟨(k, v), ?_, by simp⟩
    refine List.mem_map.mpr ⟨e0, he0, ?_⟩
    simp only [decide_eq_true_eq] at hk
    simp [hk]
  · rw [if_neg h]
    exact List.any_eq_true.mpr ⟨(k, v), List.mem_append_right _ (by simp), by simp⟩

theorem objSet_any_preserve {κ α : Type} [DecidableEq κ] {m : List (κ × α)} {k k' : κ}
    (v : α) (h : m.any (fun e => e.1 = k) = true) :
    (objSet m k' v).any (fun e => e.1 = k) = true := by
  by_cases hk : k = k'
  · subst hk
    exact objSet_any_same m k v
  · rcases List.any_eq_true.mp h with ⟨e0, he0, hke⟩
    simp only [decide_eq_true_eq] at hke
    unfold objSet
    by_cases hany : m.any (fun e => e.1 = k')
    · rw [if_pos hany]
      refine List.any_eq_true.mpr ⟨e0, List.mem_map.mpr ⟨e0, he0, ?_⟩, by simp [hke]⟩
      rw [if_neg (by rw [hke]; exact hk)]
    · rw [if_neg hany]
      exact List.any_eq_true.mpr ⟨e0, List.mem_append_left _ he0, by simp [hke]⟩

theorem objSet_noop {κ α : Type} [DecidableEq κ] {m : List (κ × α)} {k : κ} {v : α}
    (h1 : m.any (fun e => e.1 = k) = true)
    (h2 : ∀ e ∈ m, e.1 = k → e.2 = v) : objSet m k v = m := by
  unfold objSet
  rw [if_pos h1]
  rw [List.map_congr_left]
  · exact List.map_id m
  · intro e he
    by_cases hk : e.1 = k
    · rw [if_pos hk, id_eq]
      have := h2 e he hk
      rw [← hk, ← this]
    · rw [if_neg hk, id_eq]

theorem hiddenKeyList_cons (o : ConnDialogFormItemSpec)
    (rest : List ConnDialogFormItemSpec) :
    hiddenKeyList (o :: rest)
      = if o.hidden.getD false then
          (o.propertyName.getD "undefined") :: hiddenKeyList rest
        else hiddenKeyList rest := by
  unfold hiddenKeyList
  rw [List.filter_cons]
  by_cases h : o.hidden.getD false
  · simp [h]
  · simp [h]

theorem clearHiddenStep_pos (p : Profile) (o : ConnDialogFormItemSpec)
    (h : o.hidden.getD false = true) :
    clearHiddenStep p o = objSet p (o.propertyName.getD "undefined") none := by
  unfold clearHiddenStep
  rw [if_pos h]

theorem clearHiddenStep_neg (p : Profile) (o : ConnDialogFormItemSpec)
    (h : ¬o.hidden.getD false = true) : clearHiddenStep p o = p := by
  unfold clearHiddenStep
  rw [if_neg h]

theorem foldClear_objGet (specs : List ConnDialogFormItemSpec) (p : Profile) (k : String) :
    objGet (specs.foldl clearHiddenStep p) k
      = if k ∈ hiddenKeyList specs then some none else objGet p k := by
  induction specs generalizing p with
  | nil => simp [hiddenKeyList]
  | cons o rest ih =>
    rw [List.foldl_cons, hiddenKeyList_cons]
    by_cases ho : o.hidden.getD false
    · rw [if_pos ho, clearHiddenStep_pos _ _ ho, ih]
      by_cases hk : k ∈ hiddenKeyList rest
      · rw [if_pos hk, if_pos (List.mem_cons_of_mem _ hk)]
      · rw [if_neg hk]
        by_cases hk' : k = o.propertyName.getD "undefined"
        · rw [if_pos (by rw [hk']; exact List.mem_cons_self _ _)]
          rw [hk', objGet_objSet_same]
        · rw [if_neg (by
            intro hin
            rcases List.mem_cons.mp hin with h | h
            · exact hk' h
            · exact hk h)]
          exact objGet_objSet_ne _ _ _ _ hk'
    · rw [if_neg ho, clearHiddenStep_neg _ _ ho, ih]

theorem foldClear_stable (specs : List ConnDialogFormItemSpec) (p : Profile) (k : String)
    (hp : ∀ e ∈ p, e.1 = k → e.2 = none) :
    ∀ e ∈ specs.foldl clearHiddenStep p, e.1 = k → e.2 = none := by
  induction specs generalizing p with
  | nil => exact hp
  | cons o rest ih =>
    rw [List.foldl_cons]
    apply ih
    unfold clearHiddenStep
    by_cases ho : o.hidden.getD false
    · rw [if_pos ho]
      intro e he hke
      by_cases hk : k = o.propertyName.getD "undefined"
      · exact objSet_entry_eq he (by rw [hke, hk])
      · rcases mem_objSet he with h | h
        · rw [h]
        · exact hp e h.1 hke
    · rw [if_neg ho]
      exact hp

theorem foldClear_entry_none (specs : List ConnDialogFormItemSpec) (p : Profile) :
    ∀ e ∈ specs.foldl clearHiddenStep p, e.1 ∈ hiddenKeyList specs → e.2 = none := by
  induction specs generalizing p with
  | nil => simp [hiddenKeyList]
  | cons o rest ih =>
    rw [List.foldl_cons, hiddenKeyList_cons]
    by_cases ho : o.hidden.getD false
    · rw [if_pos ho]
      intro e he hke
      rcases List.mem_cons.mp hke with hk | hk
      · rw [clearHiddenStep_pos _ _ ho] at he
        refine foldClear_stable rest _ (o.propertyName.getD "undefined") ?_ e he hk
        intro e' he' hke'
        exact objSet_entry_eq he' hke'
      · exact ih _ e he hk
    · rw [if_neg ho]
      intro e he hke
      rw [clearHiddenStep_neg _ _ ho] at he
      exact ih _ e he hke

theorem foldClear_any_preserve (specs : List ConnDialogFormItemSpec) (p : Profile)
    (k : String) (h : p.any (fun e => e.1 = k) = true) :
    (specs.foldl clearHiddenStep p).any (fun e => e.1 = k) = true := by
  induction specs generalizing p with
  | nil => exact h
  | cons o rest ih =>
    rw [List.foldl_cons]
    apply ih
    unfold clearHiddenStep
    by_cases ho : o.hidden.getD false
    · rw [if_pos ho]
      exact objSet_any_preserve _ h
    · rw [if_neg ho]
      exact h

theorem foldClear_any (specs : List ConnDialogFormItemSpec) (p : Profile) (k : String)
    (h : k ∈ hiddenKeyList specs) :
    (specs.foldl clearHiddenStep p).any (fun e => e.1 = k) = true := by
  induction specs generalizing p with
  | nil => simp [hiddenKeyList] at h
  | cons o rest ih =>
    rw [hiddenKeyList_cons] at h
    rw [List.foldl_cons]
    by_cases ho : o.hidden.getD false
    · rw [if_pos ho] at h
      rcases List.mem_cons.mp h with hk | hk
      · apply foldClear_any_preserve
        unfold clearHiddenStep
        rw [if_pos ho, hk]
        exact objSet_any_same _ _ _
      · exact ih _ hk
    · rw [if_neg ho] at h
      exact ih _ h

theorem foldClear_noop (specs : List ConnDialogFormItemSpec) (p : Profile)
    (h : ∀ k ∈ hiddenKeyList specs,
      p.any (fun e => e.1 = k) = true ∧ ∀ e ∈ p, e.1 = k → e.2 = none) :
    specs.foldl clearHiddenStep p = p := by
  induction specs generalizing p with
  | nil => rfl
  | cons o rest ih =>
    rw [List.foldl_cons]
    by_cases ho : o.hidden.getD false
    · have hk : (o.propertyName.getD "undefined") ∈ hiddenKeyList (o :: rest) := by
        rw [hiddenKeyList_cons, if_pos ho]
        exact List.mem_cons_self _ _
      have hstep : clearHiddenStep p o = p := by
        unfold clearHiddenStep
        rw [if_pos ho]
        exact objSet_noop (h _ hk).1 (h _ hk).2
      rw [hstep]
      apply ih
      intro k hk'
      refine h k ?_
      rw [hiddenKeyList_cons, if_pos ho]
      exact List.mem_cons_of_mem _ hk'
    · have hstep : clearHiddenStep p o = p := by
        unfold clearHiddenStep
        rw [if_neg ho]
      rw [hstep]
      apply ih
      intro k hk'
      refine h k ?_
      rw [hiddenKeyList_cons, if_neg ho]
      exact hk'

theorem csModeZero_key (e : String × Option FieldValue) : (csModeZero e).1 = e.1 := by
  unfold csModeZero
  by_cases h : e.1 ≠ "connectionString" ∧ e.1 ≠ "profileName"
  · rw [if_pos h]
  · rw [if_neg h]

theorem csModeZero_idem (e : String × Option FieldValue) :
    csModeZero (csModeZero e) = csModeZero e := by
  unfold csModeZero
  by_cases h : e.1 ≠ "connectionString" ∧ e.1 ≠ "profileName"
  · rw [if_pos h, if_pos (by simpa using h)]
  · rw [if_neg h, if_neg h]

theorem objGet_map_csModeZero (p : Profile) (k : String) :
    objGet (p.map csModeZero) k
      = (objGet p k).map (fun v =>
          if k ≠ "connectionString" ∧ k ≠ "profileName" then none else v) := by
  induction p with
  | nil => rfl
  | cons e rest ih =>
    by_cases hk : e.1 = k
    · unfold objGet
      rw [List.map_cons,
        List.find?_cons_of_pos _ (by simpa using (csModeZero_key e).trans hk),
        List.find?_cons_of_pos _ (by simpa using hk)]
      simp only [Option.map_some']
      unfold csModeZero
      by_cases hc : e.1 ≠ "connectionString" ∧ e.1 ≠ "profileName"
      · rw [if_pos hc, if_pos (by rw [← hk]; exact hc)]
      · rw [if_neg hc, if_neg (by rw [← hk]; exact hc)]
    · unfold objGet at ih ⊢
      rw [List.map_cons,
        List.find?_cons_of_neg _ (by simpa using fun h => hk ((csModeZero_key e) ▸ h)),
        List.find?_cons_of_neg _ (by simpa using hk)]
      exact ih

theorem any_map_csModeZero (p : Profile) (k : String) :
    (p.map csModeZero).any (fun e => e.1 = k) = p.any (fun e => e.1 = k) := by
  induction p with
  | nil => rfl
  | cons e rest ih =>
    simp only [List.map_cons, List.any_cons, ih, csModeZero_key]

end MssqlDialog

namespace MssqlDialog

theorem mem_hiddenPropertiesFor_subset (m : ConnectionInputMode)
    (a : Option AuthenticationType) (t : List FormItemOptions) (n : String)
    (h : n ∈ hiddenPropertiesFor m a t) :
    n ∈ ["user", "password", "savePassword", "accountId", "tenantId"] := by
  unfold hiddenPropertiesFor at h
  by_cases hm : m = ConnectionInputMode.Parameters ∨ m = ConnectionInputMode.AzureBrowse
  · rw [if_pos hm] at h
    split_ifs at h <;> simp_all <;> tauto
  · rw [if_neg hm] at h
    simp at h

theorem hiddenKeyList_updateItemVisibility (m : ConnectionInputMode) (p0 : Profile)
    (accountsResult : Except Unit (List IAccount)) (c0 : Components) (k : String)
    (hk : k ∈ hiddenKeyList (objValues (updateItemVisibility m p0 accountsResult c0))) :
    k ∈ ["user", "password", "savePassword", "accountId", "tenantId"] := by
  unfold hiddenKeyList at hk
  rcases List.mem_map.mp hk with ⟨spec, hspec, rfl⟩
  rcases List.mem_filter.mp hspec with ⟨hmem, hhid⟩
  unfold updateItemVisibility objValues at hmem
  rw [List.map_map] at hmem
  rcases List.mem_map.mp hmem with ⟨e0, _, rfl⟩
  simp only [Function.comp] at hhid ⊢
  cases hpn : e0.2.propertyName with
  | none =>
    rw [show (({ e0.2 with hidden := some (optNameMem
        (hiddenPropertiesFor m (profAuthType p0)
          (getTenants accountsResult (profString p0 "accountId"))) e0.2.propertyName) } :
        ConnDialogFormItemSpec)).hidden.getD false
      = optNameMem (hiddenPropertiesFor m (profAuthType p0)
          (getTenants accountsResult (profString p0 "accountId"))) e0.2.propertyName from rfl,
      hpn] at hhid
    simp [optNameMem] at hhid
  | some n =>
    rw [show (({ e0.2 with hidden := some (optNameMem
        (hiddenPropertiesFor m (profAuthType p0)
          (getTenants accountsResult (profString p0 "accountId"))) e0.2.propertyName) } :
        ConnDialogFormItemSpec)).hidden.getD false
      = optNameMem (hiddenPropertiesFor m (profAuthType p0)
          (getTenants accountsResult (profString p0 "accountId"))) e0.2.propertyName from rfl,
      hpn] at hhid
    simp only [optNameMem] at hhid
    have hmem' : n ∈ hiddenPropertiesFor m (profAuthType p0)
        (getTenants accountsResult (profString p0 "accountId")) :=
      List.elem_iff.mp hhid
    simpa using mem_hiddenPropertiesFor_subset _ _ _ _ hmem'

theorem cleanConnection_params_def (m : ConnectionInputMode) (components : Components)
    (p : Profile) (hm : m = ConnectionInputMode.Parameters ∨ m = ConnectionInputMode.AzureBrowse) :
    cleanConnection m components p
      = objSet ((objValues components).foldl clearHiddenStep p) "connectionString" none := by
  unfold cleanConnection
  rw [if_pos hm]

theorem cleanConnection_cs_def (components : Components) (p : Profile) :
    cleanConnection ConnectionInputMode.ConnectionString components p
      = ((objValues components).foldl clearHiddenStep p).map csModeZero := by
  unfold cleanConnection
  rw [if_neg (by simp), if_pos rfl]

theorem objGet_isSome_of_mem {p : Profile} {k : String} {v : Option FieldValue}
    (h : (k, v) ∈ p) : (objGet p k).isSome = true := by
  unfold objGet
  cases hf : p.find? (fun e => e.1 = k) with
  | some e => rfl
  | none =>
    have hcontra := List.find?_eq_none.mp hf (k, v) h
    simp at hcontra

end MssqlDialog

namespace MssqlDialog

theorem cleanConnection_idem_params (components : Components) (p : Profile)
    (m : ConnectionInputMode)
    (hm : m = ConnectionInputMode.Parameters ∨ m = ConnectionInputMode.AzureBrowse) :
    cleanConnection m components (cleanConnection m components p)
      = cleanConnection m components p := by
  rw [cleanConnection_params_def m components p hm,
    cleanConnection_params_def m components _ hm]
  have hnoop : (objValues components).foldl clearHiddenStep
      (objSet ((objValues components).foldl clearHiddenStep p) "connectionString" none)
      = objSet ((objValues components).foldl clearHiddenStep p) "connectionString" none := by
    apply foldClear_noop
    intro k hk
    constructor
    · exact objSet_any_preserve _ (foldClear_any _ _ _ hk)
    · intro e he hke
      rcases mem_objSet he with h | h
      · rw [h]
      · exact foldClear_entry_none _ _ e h.1 (by rw [hke]; exact hk)
  rw [hnoop]
  apply objSet_noop
  · exact objSet_any_same _ _ _
  · intro e he hke
    exact objSet_entry_eq he hke

theorem cleanConnection_idem_cs (components : Components) (p : Profile) :
    cleanConnection ConnectionInputMode.ConnectionString components
        (cleanConnection ConnectionInputMode.ConnectionString components p)
      = cleanConnection ConnectionInputMode.ConnectionString components p := by
  rw [cleanConnection_cs_def, cleanConnection_cs_def]
  have hnoop : (objValues components).foldl clearHiddenStep
      (((objValues components).foldl clearHiddenStep p).map csModeZero)
      = ((objValues components).foldl clearHiddenStep p).map csModeZero := by
    apply foldClear_noop
    intro k hk
    constructor
    · rw [any_map_csModeZero]
      exact foldClear_any _ _ _ hk
    · intro e he hke
      rcases List.mem_map.mp he with ⟨e0, he0, rfl⟩
      have hk0 : e0.1 = k := by
        rw [← csModeZero_key e0]
        exact hke
      unfold csModeZero
      by_cases hc : e0.1 ≠ "connectionString" ∧ e0.1 ≠ "profileName"
      · rw [if_pos hc]
      · rw [if_neg hc]
        exact foldClear_entry_none _ _ e0 he0 (by rw [hk0]; exact hk)
  rw [hnoop, List.map_map]
  apply List.map_congr_left
  intro e _
  exact csModeZero_idem e

theorem cleanConnection_idem (m : ConnectionInputMode) (components : Components)
    (p : Profile) :
    cleanConnection m components (cleanConnection m components p)
      = cleanConnection m components p := by
  cases m with
  | Parameters => exact cleanConnection_idem_params components p _ (Or.inl rfl)
  | AzureBrowse => exact cleanConnection_idem_params components p _ (Or.inr rfl)
  | ConnectionString => exact cleanConnection_idem_cs components p

/-- C2: with component visibility computed by `updateItemVisibility`,
`cleanConnection` in ConnectionString mode sets every present field of
the profile except `connectionString` and `profileName` to `undefined`
(leaving those two unchanged); in Parameters or AzureBrowse mode it sets
`connectionString` to `undefined`, clears exactly the fields whose
compiled spec is currently hidden, and leaves every other field
unchanged; and in every mode it is idempotent:
`clean(clean(p)) = clean(p)`. -/
theorem claimC2_cleanConnection (m0 : ConnectionInputMode) (p0 : Profile)
    (accountsResult : Except Unit (List IAccount)) (c0 : Components) (p : Profile)
    (components : Components)
    (hcomps : components = updateItemVisibility m0 p0 accountsResult c0) :
    (∀ k v, (k, v) ∈ p → k ≠ "connectionString" → k ≠ "profileName" →
        objGet (cleanConnection ConnectionInputMode.ConnectionString components p) k
          = some none)
    ∧ objGet (cleanConnection ConnectionInputMode.ConnectionString components p)
        "connectionString" = objGet p "connectionString"
    ∧ objGet (cleanConnection ConnectionInputMode.ConnectionString components p)
        "profileName" = objGet p "profileName"
    ∧ (∀ m, m = ConnectionInputMode.Parameters ∨ m = ConnectionInputMode.AzureBrowse →
        objGet (cleanConnection m components p) "connectionString" = some none
        ∧ (∀ k, k ∈ hiddenKeyList (objValues components) →
            objGet (cleanConnection m components p) k = some none)
        ∧ (∀ k, k ∉ hiddenKeyList (objValues components) → k ≠ "connectionString" →
            objGet (cleanConnection m components p) k = objGet p k))
    ∧ (∀ m, cleanConnection m components (cleanConnection m components p)
        = cleanConnection m components p) := by
  have hHK : ∀ k ∈ hiddenKeyList (objValues components),
      k ∈ ["user", "password", "savePassword", "accountId", "tenantId"] := by
    intro k hk
    exact hiddenKeyList_updateItemVisibility m0 p0 accountsResult c0 k (by
      rw [← hcomps]; exact hk)
  have hcs : "connectionString" ∉ hiddenKeyList (objValues components) := by
    intro h
    have := hHK _ h
    simp at this
  have hpn : "profileName" ∉ hiddenKeyList (objValues components) := by
    intro h
    have := hHK _ h
    simp at this
  refine ⟨?_, ?_, ?_, ?_, fun m => cleanConnection_idem m components p⟩
  · intro k v hkv hk1 hk2
    rw [cleanConnection_cs_def, objGet_map_csModeZero]
    have h1 : (objGet ((objValues components).foldl clearHiddenStep p) k).isSome = true := by
      rw [foldClear_objGet]
      by_cases hk : k ∈ hiddenKeyList (objValues components)
      · rw [if_pos hk]
        rfl
      · rw [if_neg hk]
        exact objGet_isSome_of_mem hkv
    obtain ⟨w, hw⟩ := Option.isSome_iff_exists.mp h1
    rw [hw]
    simp only [Option.map_some']
    rw [if_pos ⟨hk1, hk2⟩]
  · rw [cleanConnection_cs_def, objGet_map_csModeZero, foldClear_objGet, if_neg hcs]
    cases objGet p "connectionString" with
    | none => rfl
    | some w => simp
  · rw [cleanConnection_cs_def, objGet_map_csModeZero, foldClear_objGet, if_neg hpn]
    cases objGet p "profileName" with
    | none => rfl
    | some w => simp
  · intro m hm
    refine ⟨?_, ?_, ?_⟩
    · rw [cleanConnection_params_def _ _ _ hm]
      exact objGet_objSet_same _ _ _
    · intro k hk
      have hkcs : k ≠ "connectionString" := fun h => hcs (h ▸ hk)
      rw [cleanConnection_params_def _ _ _ hm, objGet_objSet_ne _ _ _ _ hkcs,
        foldClear_objGet, if_pos hk]
    · intro k hk hkcs
      rw [cleanConnection_params_def _ _ _ hm, objGet_objSet_ne _ _ _ _ hkcs,
        foldClear_objGet, if_neg hk]

/-- Witness for C2: with visibility computed under Azure-MFA auth (so
`user` is hidden), cleaning a concrete profile in ConnectionString mode
zeroes its `server` field. -/
theorem claimC2_witness :
    objGet (cleanConnection ConnectionInputMode.ConnectionString
        (updateItemVisibility ConnectionInputMode.Parameters
          [("authenticationType", some (FieldValue.auth AuthenticationType.AzureMFA))]
          (Except.error ())
          [("user", { propertyName := some "user" }),
           ("connectionString", { propertyName := some "connectionString" })])
        [("server", some (FieldValue.str "srv")), ("user", some (FieldValue.str "u")),
         ("connectionString", some (FieldValue.str "cstr")),
         ("profileName", some (FieldValue.str "nm"))])
      "server" = some none :=
  (claimC2_cleanConnection ConnectionInputMode.Parameters
      [("authenticationType", some (FieldValue.auth AuthenticationType.AzureMFA))]
      (Except.error ())
      [("user", { propertyName := some "user" }),
       ("connectionString", { propertyName := some "connectionString" })]
      [("server", some (FieldValue.str "srv")), ("user", some (FieldValue.str "u")),
       ("connectionString", some (FieldValue.str "cstr")),
       ("profileName", some (FieldValue.str "nm"))]
      _ rfl).1 "server" (some (FieldValue.str "srv")) (by decide) (by decide) (by decide)

end MssqlDialog

namespace MssqlDialog

theorem objGet_unique_of_nodup {α : Type} {l : List (String × α)} {e : String × α}
    (hkeys : (objKeys l).Nodup) (he : e ∈ l) : objGet l e.1 = some e.2 := by
  induction l with
  | nil => simp at he
  | cons a rest ih =>
    rcases List.mem_cons.mp he with rfl | hmem
    · unfold objGet
      rw [List.find?_cons_of_pos _ (by simp)]
      rfl
    · have hne : a.1 ≠ e.1 := by
        intro h
        have hkey : e.1 ∈ objKeys rest := List.mem_map_of_mem _ hmem
        rw [objKeys, List.map_cons, List.nodup_cons] at hkeys
        exact hkeys.1 (h ▸ hkey)
      unfold objGet
      rw [List.find?_cons_of_neg _ (by simpa using hne)]
      exact ih (by
        rw [objKeys, List.map_cons, List.nodup_cons] at hkeys
        exact hkeys.2) hmem

theorem any_of_objGet_isSome {α : Type} {l : List (String × α)} {k : String}
    (h : (objGet l k).isSome = true) : l.any (fun e => e.1 = k) = true := by
  unfold objGet at h
  cases hf : l.find? (fun e => e.1 = k) with
  | none => rw [hf] at h; simp at h
  | some e =>
    have hm := List.mem_of_find?_eq_some hf
    have hk := List.find?_some hf
    exact List.any_eq_true.mpr ⟨e, hm, hk⟩

/-- The key-preserving entry transform used to describe the whole-form
validation pass: update the entries whose key is in `S`. -/
def keyedUpdate {α : Type} (g : α → α) (S : List String) (e : String × α) : String × α :=
  if e.1 ∈ S then (e.1, g e.2) else e

theorem keyedUpdate_key {α : Type} (g : α → α) (S : List String) (e : String × α) :
    (keyedUpdate g S e).1 = e.1 := by
  unfold keyedUpdate
  by_cases h : e.1 ∈ S
  · rw [if_pos h]
  · rw [if_neg h]

theorem objGet_map_keyedUpdate {α : Type} (g : α → α) (S : List String)
    (l : List (String × α)) (k : String) :
    objGet (l.map (keyedUpdate g S)) k
      = if k ∈ S then (objGet l k).map g else objGet l k := by
  induction l with
  | nil =>
    by_cases h : k ∈ S
    · rw [if_pos h]; rfl
    · rw [if_neg h]; rfl
  | cons e rest ih =>
    by_cases hk : e.1 = k
    · unfold objGet
      rw [List.map_cons,
        List.find?_cons_of_pos _ (by simpa using (keyedUpdate_key g S e).trans hk),
        List.find?_cons_of_pos _ (by simpa using hk)]
      unfold keyedUpdate
      by_cases hS : e.1 ∈ S
      · rw [if_pos hS, if_pos (hk ▸ hS)]
        rfl
      · rw [if_neg hS, if_neg (hk ▸ hS)]
    · unfold objGet at ih ⊢
      rw [List.map_cons,
        List.find?_cons_of_neg _ (by simpa using fun h => hk ((keyedUpdate_key g S e) ▸ h)),
        List.find?_cons_of_neg _ (by simpa using hk)]
      exact ih

theorem any_map_keyedUpdate {α : Type} (g : α → α) (S : List String)
    (l : List (String × α)) (k : String) :
    (l.map (keyedUpdate g S)).any (fun e => e.1 = k) = l.any (fun e => e.1 = k) := by
  induction l with
  | nil => rfl
  | cons e rest ih =>
    simp only [List.map_cons, List.any_cons, ih, keyedUpdate_key]

theorem map_keyedUpdate_congr {α : Type} (g : α → α) (S1 S2 : List String)
    (l : List (String × α)) (h : ∀ k, k ∈ S1 ↔ k ∈ S2) :
    l.map (keyedUpdate g S1) = l.map (keyedUpdate g S2) := by
  apply List.map_congr_left
  intro e _
  unfold keyedUpdate
  by_cases hS : e.1 ∈ S1
  · rw [if_pos hS, if_pos ((h e.1).mp hS)]
  · rw [if_neg hS, if_neg (fun h2 => hS ((h e.1).mpr h2))]

/-- The entry stored back by the whole-form pass for one visited
component: hidden components are forced valid with an empty message; a
visible component's validator result is stored; a component with no
validator is untouched. -/
def validatedEntry (ctx : ValidatorCtx) (p : Profile) (c : ConnDialogFormItemSpec) :
    ConnDialogFormItemSpec :=
  if c.hidden.getD false then
    { c with validation := some { isValid := true, validationMessage := "" } }
  else
    match c.validate with
    | none => c
    | some v => { c with validation := some (runValidator ctx v (validedValue p c)) }

/-- The `erroredInputs` list predicted from the original component map. -/
def erroredSpec (ctx : ValidatorCtx) (p : Profile) (components : Components)
    (names : List String) : List (Option String) :=
  names.filterMap (fun n =>
    match objGet components n with
    | some c =>
      if c.hidden.getD false then none
      else
        match c.validate with
        | none => none
        | some v =>
          if (runValidator ctx v (validedValue p c)).isValid then none
          else some c.propertyName
    | none => none)

/-- The names whose validator the whole-form pass invokes. -/
def invokedSpec (components : Components) (names : List String) : List String :=
  names.filter (fun n =>
    match objGet components n with
    | some c => !(c.hidden.getD false) && c.validate.isSome
    | none => false)

theorem objSet_mapValidated (ctx : ValidatorCtx) (p : Profile) (components : Components)
    (hkeys : (objKeys components).Nodup) (S : List String) (name : String)
    (c : ConnDialogFormItemSpec) (hS : name ∉ S)
    (hc : objGet components name = some c) :
    objSet (components.map (keyedUpdate (validatedEntry ctx p) S)) name
        (validatedEntry ctx p c)
      = components.map (keyedUpdate (validatedEntry ctx p) (name :: S)) := by
  have hany : (components.map (keyedUpdate (validatedEntry ctx p) S)).any
      (fun e => e.1 = name) = true := by
    rw [any_map_keyedUpdate]
    exact any_of_objGet_isSome (by rw [hc]; rfl)
  unfold objSet
  rw [if_pos hany, List.map_map]
  apply List.map_congr_left
  intro e he
  simp only [Function.comp]
  by_cases hk : e.1 = name
  · have hnotS : e.1 ∉ S := by rw [hk]; exact hS
    have hc' : c = e.2 := by
      have := objGet_unique_of_nodup hkeys he
      rw [hk, hc] at this
      exact (Option.some_inj.mp this)
    rw [show keyedUpdate (validatedEntry ctx p) S e = e from by
      unfold keyedUpdate; rw [if_neg hnotS]]
    rw [if_pos hk]
    unfold keyedUpdate
    rw [if_pos (by rw [hk]; exact List.mem_cons_self _ _), hc', ← hk]
  · unfold keyedUpdate
    by_cases hS' : e.1 ∈ S
    · rw [if_pos hS', if_neg (by simpa using hk),
        if_pos (List.mem_cons_of_mem _ hS')]
    · rw [if_neg hS', if_neg hk,
        if_neg (by
          intro hmem
          rcases List.mem_cons.mp hmem with h | h
          · exact hk h
          · exact hS' h)]

end MssqlDialog

namespace MssqlDialog

theorem map_keyedUpdate_nil {α : Type} (g : α → α) (l : List (String × α)) :
    l.map (keyedUpdate g []) = l := by
  have h : ∀ e ∈ l, keyedUpdate g [] e = e := by
    intro e _
    unfold keyedUpdate
    rw [if_neg (by simp)]
  rw [List.map_congr_left h]
  simp

theorem erroredSpec_nil (ctx : ValidatorCtx) (p : Profile) (components : Components) :
    erroredSpec ctx p components [] = [] := rfl

theorem invokedSpec_nil (components : Components) : invokedSpec components [] = [] := rfl

theorem validateFormLoop_spec (ctx : ValidatorCtx) (p : Profile) (components : Components)
    (hkeys : (objKeys components).Nodup) (names : List String) :
    ∀ (S : List String) (er : List (Option String)) (inv : List String),
      names.Nodup → (∀ n ∈ names, n ∉ S) →
      (∀ n ∈ names, (objGet components n).isSome = true) →
      validateFormLoop ctx p
          (components.map (keyedUpdate (validatedEntry ctx p) S), er, inv) names
        = Except.ok (components.map (keyedUpdate (validatedEntry ctx p) (names ++ S)),
            er ++ erroredSpec ctx p components names,
            inv ++ invokedSpec components names) := by
  induction names with
  | nil =>
    intro S er inv _ _ _
    simp only [validateFormLoop, erroredSpec_nil, invokedSpec_nil, List.append_nil,
      List.nil_append]
  | cons name rest ih =>
    intro S er inv hnodup hdisj hpresent
    obtain ⟨c, hc⟩ := Option.isSome_iff_exists.mp (hpresent name (List.mem_cons_self _ _))
    have hnameS : name ∉ S := hdisj name (List.mem_cons_self _ _)
    have hgetS : objGet (components.map (keyedUpdate (validatedEntry ctx p) S)) name
        = some c := by
      rw [objGet_map_keyedUpdate, if_neg hnameS, hc]
    have hrestNodup : rest.Nodup := (List.nodup_cons.mp hnodup).2
    have hnameRest : name ∉ rest := (List.nodup_cons.mp hnodup).1
    have hrestPresent : ∀ n ∈ rest, (objGet components n).isSome = true :=
      fun n hn => hpresent n (List.mem_cons_of_mem _ hn)
    have hrestDisj : ∀ n ∈ rest, n ∉ name :: S := by
      intro n hn hmem
      rcases List.mem_cons.mp hmem with h | h
      · exact hnameRest (h ▸ hn)
      · exact hdisj n (List.mem_cons_of_mem _ hn) h
    have hcongr : components.map (keyedUpdate (validatedEntry ctx p) (rest ++ name :: S))
        = components.map (keyedUpdate (validatedEntry ctx p) ((name :: rest) ++ S)) :=
      map_keyedUpdate_congr _ _ _ components (by intro k; simp; tauto)
    have hloopEq : validateFormLoop ctx p
        (components.map (keyedUpdate (validatedEntry ctx p) S), er, inv) (name :: rest)
      = (match validateFormStep ctx p
          (components.map (keyedUpdate (validatedEntry ctx p) S), er, inv) name with
        | Except.error e => Except.error e
        | Except.ok acc' => validateFormLoop ctx p acc' rest) := rfl
    by_cases hhid : c.hidden.getD false
    · have hstep : validateFormStep ctx p
          (components.map (keyedUpdate (validatedEntry ctx p) S), er, inv) name
          = Except.ok (objSet (components.map (keyedUpdate (validatedEntry ctx p) S))
              name (validatedEntry ctx p c), er, inv) := by
        simp [validateFormStep, hgetS, hhid, validatedEntry]
      rw [hloopEq, hstep]
      show validateFormLoop ctx p _ rest = _
      rw [objSet_mapValidated ctx p components hkeys S name c hnameS hc]
      rw [ih (name :: S) er inv hrestNodup hrestDisj hrestPresent]
      have her : erroredSpec ctx p components (name :: rest)
          = erroredSpec ctx p components rest := by
        unfold erroredSpec
        rw [List.filterMap_cons, hc]
        simp [hhid]
      have hinv : invokedSpec components (name :: rest) = invokedSpec components rest := by
        unfold invokedSpec
        rw [List.filter_cons, hc]
        simp [hhid]
      rw [her, hinv, hcongr]
    · cases hv : c.validate with
      | none =>
        have hstep : validateFormStep ctx p
            (components.map (keyedUpdate (validatedEntry ctx p) S), er, inv) name
            = Except.ok (components.map (keyedUpdate (validatedEntry ctx p) S), er, inv) := by
          simp [validateFormStep, hgetS, hhid, hv]
        have hfix : components.map (keyedUpdate (validatedEntry ctx p) S)
            = components.map (keyedUpdate (validatedEntry ctx p) (name :: S)) := by
          apply List.map_congr_left
          intro e he
          unfold keyedUpdate
          by_cases hk : e.1 = name
          · have hnotS : e.1 ∉ S := by rw [hk]; exact hnameS
            rw [if_neg hnotS, if_pos (by rw [hk]; exact List.mem_cons_self _ _)]
            have hc' : c = e.2 := by
              have := objGet_unique_of_nodup hkeys he
              rw [hk, hc] at this
              exact Option.some_inj.mp this
            have hid : validatedEntry ctx p e.2 = e.2 := by
              unfold validatedEntry
              rw [if_neg (by rw [← hc']; exact hhid), ← hc', hv]
            rw [hid]
          · by_cases hS' : e.1 ∈ S
            · rw [if_pos hS', if_pos (List.mem_cons_of_mem _ hS')]
            · rw [if_neg hS', if_neg (by
                intro hmem
                rcases List.mem_cons.mp hmem with h | h
                · exact hk h
                · exact hS' h)]
        rw [hloopEq, hstep]
        show validateFormLoop ctx p _ rest = _
        rw [hfix, ih (name :: S) er inv hrestNodup hrestDisj hrestPresent]
        have her : erroredSpec ctx p components (name :: rest)
            = erroredSpec ctx p components rest := by
          unfold erroredSpec
          rw [List.filterMap_cons, hc]
          simp [hhid, hv]
        have hinv : invokedSpec components (name :: rest) = invokedSpec components rest := by
          unfold invokedSpec
          rw [List.filter_cons, hc]
          simp [hhid, hv]
        rw [her, hinv, hcongr]
      | some v =>
        by_cases hres : (runValidator ctx v (validedValue p c)).isValid
        · have hstep : validateFormStep ctx p
              (components.map (keyedUpdate (validatedEntry ctx p) S), er, inv) name
              = Except.ok (objSet (components.map (keyedUpdate (validatedEntry ctx p) S))
                  name (validatedEntry ctx p c), er, inv ++ [name]) := by
            simp [validateFormStep, hgetS, hhid, hv, hres, validatedEntry]
          rw [hloopEq, hstep]
          show validateFormLoop ctx p _ rest = _
          rw [objSet_mapValidated ctx p components hkeys S name c hnameS hc]
          rw [ih (name :: S) er (inv ++ [name]) hrestNodup hrestDisj hrestPresent]
          have her : erroredSpec ctx p components (name :: rest)
              = erroredSpec ctx p components rest := by
            unfold erroredSpec
            rw [List.filterMap_cons, hc]
            simp [hhid, hv, hres]
          have hinv : invokedSpec components (name :: rest)
              = name :: invokedSpec components rest := by
            unfold invokedSpec
            rw [List.filter_cons, hc]
            simp [hhid, hv]
          rw [her, hinv, hcongr, List.append_cons inv name (invokedSpec components rest)]
        · have hstep : validateFormStep ctx p
              (components.map (keyedUpdate (validatedEntry ctx p) S), er, inv) name
              = Except.ok (objSet (components.map (keyedUpdate (validatedEntry ctx p) S))
                  name (validatedEntry ctx p c),
                  er ++ [c.propertyName], inv ++ [name]) := by
            simp [validateFormStep, hgetS, hhid, hv, hres, validatedEntry]
          rw [hloopEq, hstep]
          show validateFormLoop ctx p _ rest = _
          rw [objSet_mapValidated ctx p components hkeys S name c hnameS hc]
          rw [ih (name :: S) (er ++ [c.propertyName]) (inv ++ [name])
            hrestNodup hrestDisj hrestPresent]
          have her : erroredSpec ctx p components (name :: rest)
              = c.propertyName :: erroredSpec ctx p components rest := by
            unfold erroredSpec
            rw [List.filterMap_cons, hc]
            simp [hhid, hv, hres]
          have hinv : invokedSpec components (name :: rest)
              = name :: invokedSpec components rest := by
            unfold invokedSpec
            rw [List.filter_cons, hc]
            simp [hhid, hv]
          rw [her, hinv, hcongr, List.append_cons inv name (invokedSpec components rest),
            List.append_cons er c.propertyName (erroredSpec ctx p components rest)]

end MssqlDialog

namespace MssqlDialog

theorem filterMap_congr_mem {α β : Type} (f g : α → Option β) (l : List α)
    (h : ∀ a ∈ l, f a = g a) : l.filterMap f = l.filterMap g := by
  induction l with
  | nil => rfl
  | cons a rest ih =>
    rw [List.filterMap_cons, List.filterMap_cons, h a (List.mem_cons_self _ _),
      ih (fun a ha => h a (List.mem_cons_of_mem _ ha))]


/-- C5: whole-form validation (`validateConnectionProfile` with no
property name) iterates exactly the active field set of the current input
mode; every hidden field is assigned a valid result with empty message
without its validator being invoked; every visible field with a validator
gets that validator's result stored on its spec; a field without a
validator is never touched, never reported invalid and never causes a
throw; components outside the active set are untouched; and the returned
list is exactly the property names of active fields whose stored result
is invalid (given that no-validator fields do not carry a stale invalid
mark, which the dialog's own flow guarantees since only validators ever
store an invalid result). -/
theorem claimC5_validateConnectionProfile (ctx : ValidatorCtx) (mode : ConnectionInputMode)
    (mainOptions : List String) (components : Components) (p : Profile)
    (hkeys : (objKeys components).Nodup)
    (hactive : (getActiveFormComponents mode mainOptions).Nodup)
    (hpresent : ∀ n ∈ getActiveFormComponents mode mainOptions,
        (objGet components n).isSome = true)
    (hclean : ∀ n ∈ getActiveFormComponents mode mainOptions, ∀ c,
        objGet components n = some c → c.validate = none →
        ∀ r, c.validation = some r → r.isValid = true) :
    validateConnectionProfile ctx mode mainOptions components p
      = Except.ok (erroredSpec ctx p components (getActiveFormComponents mode mainOptions),
          components.map (keyedUpdate (validatedEntry ctx p)
            (getActiveFormComponents mode mainOptions)),
          invokedSpec components (getActiveFormComponents mode mainOptions))
    ∧ (∀ n ∈ getActiveFormComponents mode mainOptions, ∀ c,
        objGet components n = some c → c.hidden.getD false = true →
        objGet (components.map (keyedUpdate (validatedEntry ctx p)
            (getActiveFormComponents mode mainOptions))) n
          = some { c with validation := some { isValid := true, validationMessage := "" } }
        ∧ n ∉ invokedSpec components (getActiveFormComponents mode mainOptions))
    ∧ (∀ n ∈ getActiveFormComponents mode mainOptions, ∀ c v,
        objGet components n = some c → c.hidden.getD false = false → c.validate = some v →
        objGet (components.map (keyedUpdate (validatedEntry ctx p)
            (getActiveFormComponents mode mainOptions))) n
          = some { c with validation := some (runValidator ctx v (validedValue p c)) }
        ∧ n ∈ invokedSpec components (getActiveFormComponents mode mainOptions))
    ∧ (∀ n ∈ getActiveFormComponents mode mainOptions, ∀ c,
        objGet components n = some c → c.hidden.getD false = false → c.validate = none →
        objGet (components.map (keyedUpdate (validatedEntry ctx p)
            (getActiveFormComponents mode mainOptions))) n = some c
        ∧ n ∉ invokedSpec components (getActiveFormComponents mode mainOptions))
    ∧ (∀ k, k ∉ getActiveFormComponents mode mainOptions →
        objGet (components.map (keyedUpdate (validatedEntry ctx p)
            (getActiveFormComponents mode mainOptions))) k = objGet components k)
    ∧ erroredSpec ctx p components (getActiveFormComponents mode mainOptions)
        = (getActiveFormComponents mode mainOptions).filterMap (fun n =>
            match objGet (components.map (keyedUpdate (validatedEntry ctx p)
                (getActiveFormComponents mode mainOptions))) n with
            | some c =>
              match c.validation with
              | some r => if r.isValid then none else some c.propertyName
              | none => none
            | none => none) := by
  refine ⟨?_, ?_, ?_, ?_, ?_, ?_⟩
  · have hloop := validateFormLoop_spec ctx p components hkeys
      (getActiveFormComponents mode mainOptions) [] [] [] hactive (by simp) hpresent
    rw [map_keyedUpdate_nil, List.append_nil, List.nil_append, List.nil_append] at hloop
    simp only [validateConnectionProfile, hloop]
  · intro n hn c hc hhid
    constructor
    · rw [objGet_map_keyedUpdate, if_pos hn, hc]
      simp [validatedEntry, hhid]
    · intro hmem
      unfold invokedSpec at hmem
      have := (List.mem_filter.mp hmem).2
      rw [hc] at this
      simp [hhid] at this
  · intro n hn c v hc hhid hv
    constructor
    · rw [objGet_map_keyedUpdate, if_pos hn, hc]
      simp [validatedEntry, hhid, hv]
    · unfold invokedSpec
      refine List.mem_filter.mpr ⟨hn, ?_⟩
      rw [hc]
      simp [hhid, hv]
  · intro n hn c hc hhid hv
    constructor
    · rw [objGet_map_keyedUpdate, if_pos hn, hc]
      simp [validatedEntry, hhid, hv]
    · intro hmem
      unfold invokedSpec at hmem
      have := (List.mem_filter.mp hmem).2
      rw [hc] at this
      simp [hhid, hv] at this
  · intro k hk
    rw [objGet_map_keyedUpdate, if_neg hk]
  · unfold erroredSpec
    apply filterMap_congr_mem
    intro n hn
    obtain ⟨c, hc⟩ := Option.isSome_iff_exists.mp (hpresent n hn)
    rw [hc, objGet_map_keyedUpdate, if_pos hn, hc]
    by_cases hhid : c.hidden.getD false
    · simp [validatedEntry, hhid]
    · cases hv : c.validate with
      | none =>
        cases hval : c.validation with
        | none => simp [validatedEntry, hhid, hv, hval]
        | some r =>
          have hr := hclean n hn c hc hv r hval
          simp [validatedEntry, hhid, hv, hval, hr]
      | some v =>
        by_cases hres : (runValidator ctx v (validedValue p c)).isValid
        · simp [validatedEntry, hhid, hv, hres]
        · simp [validatedEntry, hhid, hv, hres]

/-- Concrete single-field component map used by the C5 and C3
witnesses. -/
def sampleServerComponents : Components :=
  [("server",
    { propertyName := some "server", hidden := some false, validate := some Validator.serverRequired })]

/-- Witness for C5: with SQL-login auth and a missing server value, the
whole-form pass returns exactly `server` as invalid, stores the failed
validation on the spec, and reports the validator as invoked. -/
theorem claimC5_witness :
    validateConnectionProfile
        { stateAuthType := some AuthenticationType.SqlLogin
          stateInputMode := ConnectionInputMode.Parameters }
        ConnectionInputMode.Parameters ["server"] sampleServerComponents []
      = Except.ok ([some "server"],
          [("server",
            { propertyName := some "server", hidden := some false, validate := some Validator.serverRequired, validation := some { isValid := false, validationMessage := "serverIsRequired" } })],
          ["server"]) := by
  have h := (claimC5_validateConnectionProfile
    { stateAuthType := some AuthenticationType.SqlLogin
      stateInputMode := ConnectionInputMode.Parameters }
    ConnectionInputMode.Parameters ["server"] sampleServerComponents []
    (by decide) (by decide) (by decide)
    (by
      intro n hn c hc hv r hr
      simp [getActiveFormComponents] at hn
      subst hn
      rw [show objGet sampleServerComponents "server"
          = some ({ propertyName := some "server", hidden := some false, validate := some Validator.serverRequired } : ConnDialogFormItemSpec)
        from rfl] at hc
      cases Option.some_inj.mp hc
      simp at hv)).1
  rw [h]
  rfl

end MssqlDialog

namespace MssqlDialog

/-- C3: whenever `connectHelper` runs and whole-form validation of the
cleaned copy reports at least one invalid field, the connection status
transitions Loading then Error and the remote validate-and-save
collaborator is never invoked. -/
theorem claimC3_connect_validation_failure (st : DialogState)
    (remoteOutcome : RemoteOutcome) (firewallResult : FirewallHandleResult)
    (azureTenants : List AzureTenant) (attempt : ConnectAttempt)
    (h : connectHelper st remoteOutcome firewallResult azureTenants = Except.ok attempt)
    (hne : attempt.erroredInputs ≠ []) :
    attempt.statusTrace = [ApiStatus.Loading, ApiStatus.Error]
    ∧ attempt.state.connectionStatus = ApiStatus.Error
    ∧ attempt.remoteCalled = false := by
  cases hclear : clearValidationLoop st.components
      (getActiveFormComponents st.selectedInputMode st.mainOptions) with
  | error e => cases remoteOutcome <;> simp [connectHelper, hclear] at h
  | ok comps0 =>
    cases hval : validateConnectionProfile (stateValidatorCtx st) st.selectedInputMode
        st.mainOptions comps0
        (cleanConnection st.selectedInputMode comps0 st.connectionProfile) with
    | error e => cases remoteOutcome <;> simp [connectHelper, hclear, hval] at h
    | ok triple =>
      obtain ⟨errored, comps1, invoked⟩ := triple
      by_cases hlen : 0 < errored.length
      · cases remoteOutcome with
        | threw msg =>
          simp only [connectHelper, hclear, hval] at h
          rw [if_pos hlen] at h
          have ha := (Except.ok.inj h).symm
          subst ha
          exact ⟨rfl, rfl, rfl⟩
        | completed result =>
          simp only [connectHelper, hclear, hval] at h
          rw [if_pos hlen] at h
          have ha := (Except.ok.inj h).symm
          subst ha
          exact ⟨rfl, rfl, rfl⟩
      · exfalso
        have hnil : errored = [] := List.eq_nil_of_length_eq_zero (by omega)
        cases remoteOutcome with
        | threw msg =>
          simp only [connectHelper, hclear, hval] at h
          rw [if_neg hlen] at h
          have ha := (Except.ok.inj h).symm
          subst ha
          exact hne hnil
        | completed result =>
          simp only [connectHelper, hclear, hval] at h
          rw [if_neg hlen] at h
          by_cases hmsg : strTruthy result.errorMessage
          · rw [if_pos hmsg] at h
            have ha := (Except.ok.inj h).symm
            subst ha
            exact hne hnil
          · rw [if_neg hmsg] at h
            have ha := (Except.ok.inj h).symm
            subst ha
            exact hne hnil

/-- The dialog state of the end-to-end C3 scenario: SQL-login auth,
Parameters mode, no server value. -/
def sampleC3State : DialogState :=
  { connectionProfile := [("authenticationType",
      some (FieldValue.auth AuthenticationType.SqlLogin))]
    selectedInputMode := ConnectionInputMode.Parameters
    mainOptions := ["server"]
    topAdvancedOptions := []
    components := sampleServerComponents
    connectionStatus := ApiStatus.NotStarted
    formError := some ""
    dialog := none }

/-- The attempt produced by `connectHelper` on `sampleC3State`. -/
def sampleC3Attempt : ConnectAttempt :=
  { state :=
      { connectionProfile := [("authenticationType",
          some (FieldValue.auth AuthenticationType.SqlLogin))]
        selectedInputMode := ConnectionInputMode.Parameters
        mainOptions := ["server"]
        topAdvancedOptions := []
        components := [("server",
          { propertyName := some "server", hidden := some false, validate := some Validator.serverRequired, validation := some { isValid := false, validationMessage := "serverIsRequired" } })]
        connectionStatus := ApiStatus.Error
        formError := some ""
        dialog := none }
    statusTrace := [ApiStatus.Loading, ApiStatus.Error]
    remoteCalled := false
    erroredInputs := [some "server"]
    cleanedProfile := [("authenticationType",
        some (FieldValue.auth AuthenticationType.SqlLogin)),
      ("connectionString", none)] }

/-- Witness for C3: connecting with SQL-login auth and an empty server
transitions Loading→Error, makes no remote call, and reports `server`
invalid. -/
theorem claimC3_witness :
    sampleC3Attempt.statusTrace = [ApiStatus.Loading, ApiStatus.Error]
    ∧ sampleC3Attempt.state.connectionStatus = ApiStatus.Error
    ∧ sampleC3Attempt.remoteCalled = false
    ∧ sampleC3Attempt.erroredInputs = [some "server"] := by
  have h3 := claimC3_connect_validation_failure sampleC3State
    (RemoteOutcome.threw "boom") { result := true, ipAddress := none } []
    sampleC3Attempt (by rfl) (by decide)
  exact ⟨h3.1, h3.2.1, h3.2.2, by decide⟩

end MssqlDialog

namespace MssqlDialog

theorem profAuthType_objSet_tenantId (p : Profile) (v : Option FieldValue) :
    profAuthType (objSet p "tenantId" v) = profAuthType p := by
  unfold profAuthType
  rw [objGet_objSet_ne _ _ _ _ (by decide)]

theorem profString_objSet_ne (p : Profile) (k k' : String) (v : Option FieldValue)
    (h : k' ≠ k) : profString (objSet p k v) k' = profString p k' := by
  unfold profString
  rw [objGet_objSet_ne _ _ _ _ h]

theorem profString_objSet_str (p : Profile) (k : String) (s : String) :
    profString (objSet p k (some (FieldValue.str s))) k = some s := by
  unfold profString
  rw [objGet_objSet_same]

theorem getAzureActionButtons_eq (auth : Option AuthenticationType)
    (accId : Option String) (accounts : List IAccount) (tokExp : Bool) :
    getAzureActionButtons auth accId (Except.ok accounts) (Except.ok tokExp)
      = if auth = some AuthenticationType.AzureMFA ∧ strTruthy accId then
          match findAccountByUserId accounts (accId.getD "") with
          | Except.error e => Except.error e
          | Except.ok none =>
              Except.ok [{ label := "signIn", id := "azureSignIn" }]
          | Except.ok (some _) =>
              if tokExp then
                Except.ok [{ label := "signIn", id := "azureSignIn" },
                  { label := "refreshTokenLabel", id := "refreshToken" }]
              else Except.ok [{ label := "signIn", id := "azureSignIn" }]
        else Except.ok [{ label := "signIn", id := "azureSignIn" }] := rfl

/-- The account used in the C8 scenario. -/
def sampleC8Account : IAccount :=
  { displayInfo := some { displayName := "Ada", userId := "u1" }
    tenants := some [{ id := "t1", displayName := "T1" }] }

/-- The dialog state of the C8 scenario: Azure-MFA auth with a selected
account and no tenant chosen yet. -/
def sampleC8State : DialogState :=
  { connectionProfile := [("authenticationType",
      some (FieldValue.auth AuthenticationType.AzureMFA)),
      ("accountId", some (FieldValue.str "u1"))]
    selectedInputMode := ConnectionInputMode.Parameters
    mainOptions := ["accountId", "tenantId"]
    topAdvancedOptions := []
    components := [("accountId",
      { propertyName := some "accountId", options := some [] }),
      ("tenantId", { propertyName := some "tenantId", options := some [] })]
    connectionStatus := ApiStatus.NotStarted
    formError := some ""
    dialog := none }

/-- Counterexample for C8: an edit to `tenantId` while auth mode is
Azure-MFA leaves the state completely unchanged — the switch case for
`tenantId` is an empty `break` — even though a tenant re-fetch would
return a non-empty list and the claim then demands auto-selecting its
first entry into the (still unset) `tenantId` field. -/
theorem claimC8_counterexample :
    handleAzureMFAEdits "tenantId" sampleC8State (Except.ok [sampleC8Account])
        (Except.ok false)
      = Except.ok sampleC8State
    ∧ getTenants (Except.ok [sampleC8Account])
        (profString sampleC8State.connectionProfile "accountId")
      = [{ displayName := "T1", value := "t1" }]
    ∧ objGet sampleC8State.connectionProfile "tenantId" = none := by
  refine ⟨rfl, rfl, rfl⟩

end MssqlDialog

namespace MssqlDialog

theorem profAuthType_objSet_accountId (p : Profile) (v : Option FieldValue) :
    profAuthType (objSet p "accountId" v) = profAuthType p := by
  unfold profAuthType
  rw [objGet_objSet_ne _ _ _ _ (by decide)]

theorem profString_accountId_objSet_tenantId (p : Profile) (v : Option FieldValue) :
    profString (objSet p "tenantId" v) "accountId" = profString p "accountId" :=
  profString_objSet_ne _ _ _ _ (by decide)

/-- C8 (amended): the MFA side-effect handler re-fetches tenants,
auto-selects the first tenant, and rebuilds the account action buttons on
edits to `accountId` and `authenticationType` while auth mode is
Azure-MFA (for `authenticationType` after auto-selecting the first
account option); an edit to `tenantId` is a no-op (its switch case is an
empty `break`); any other property, or a non-MFA auth mode, changes
nothing; and the rebuilt button list always starts with the sign-in
button, with the token-refresh button appended exactly when the account
is resolved and its cached token is expired. -/
theorem claimC8_handleAzureMFAEdits (st : DialogState)
    (accountsResult : Except Unit (List IAccount)) (tokenResult : Except Unit Bool) :
    (handleAzureMFAEdits "tenantId" st accountsResult tokenResult = Except.ok st)
    ∧ (∀ propertyName,
        profAuthType st.connectionProfile ≠ some AuthenticationType.AzureMFA →
        handleAzureMFAEdits propertyName st accountsResult tokenResult = Except.ok st)
    ∧ (∀ propertyName,
        ¬(propertyName = "accountId" ∨ propertyName = "tenantId"
          ∨ propertyName = "authenticationType") →
        handleAzureMFAEdits propertyName st accountsResult tokenResult = Except.ok st)
    ∧ (∀ ac tc buttons,
        profAuthType st.connectionProfile = some AuthenticationType.AzureMFA →
        getFormComponent st.selectedInputMode st.mainOptions st.components "accountId"
          = some ac →
        getFormComponent st.selectedInputMode st.mainOptions st.components "tenantId"
          = some tc →
        getAzureActionButtons (profAuthType st.connectionProfile)
            (profString st.connectionProfile "accountId") accountsResult tokenResult
          = Except.ok buttons →
        handleAzureMFAEdits "accountId" st accountsResult tokenResult
          = Except.ok { st with
              components := objSet (objSet st.components "tenantId"
                  { tc with options := some (getTenants accountsResult
                      (profString st.connectionProfile "accountId")) })
                "accountId" { ac with actionButtons := some buttons }
              connectionProfile :=
                match getTenants accountsResult (profString st.connectionProfile "accountId") with
                | t :: _ =>
                  objSet st.connectionProfile "tenantId" (some (FieldValue.str t.value))
                | [] => st.connectionProfile })
    ∧ (∀ ac tc accountOptions firstOption buttons,
        profAuthType st.connectionProfile = some AuthenticationType.AzureMFA →
        getFormComponent st.selectedInputMode st.mainOptions st.components "accountId"
          = some ac →
        getFormComponent st.selectedInputMode st.mainOptions st.components "tenantId"
          = some tc →
        ac.options = some (firstOption :: accountOptions) →
        getAzureActionButtons (profAuthType st.connectionProfile)
            (some firstOption.value) accountsResult tokenResult = Except.ok buttons →
        handleAzureMFAEdits "authenticationType" st accountsResult tokenResult
          = Except.ok { st with
              components := objSet (objSet st.components "tenantId"
                  { tc with options := some (getTenants accountsResult
                      (some firstOption.value)) })
                "accountId" { ac with actionButtons := some buttons }
              connectionProfile :=
                match getTenants accountsResult (some firstOption.value) with
                | t :: _ =>
                  objSet (objSet st.connectionProfile "accountId"
                      (some (FieldValue.str firstOption.value))) "tenantId"
                    (some (FieldValue.str t.value))
                | [] => objSet st.connectionProfile "accountId"
                    (some (FieldValue.str firstOption.value)) })
    ∧ (∀ (auth : Option AuthenticationType) (accId : Option String)
        (accounts : List IAccount) (tokExp : Bool) (buttons : List FormItemActionButton),
        getAzureActionButtons auth accId (Except.ok accounts) (Except.ok tokExp)
          = Except.ok buttons →
        (buttons = [{ label := "signIn", id := "azureSignIn" }]
          ∨ buttons = [{ label := "signIn", id := "azureSignIn" },
              { label := "refreshTokenLabel", id := "refreshToken" }])
        ∧ (buttons = [{ label := "signIn", id := "azureSignIn" },
              { label := "refreshTokenLabel", id := "refreshToken" }]
            ↔ auth = some AuthenticationType.AzureMFA ∧ strTruthy accId = true
              ∧ (∃ a, findAccountByUserId accounts (accId.getD "")
                  = Except.ok (some a))
              ∧ tokExp = true)) := by
  refine ⟨?_, ?_, ?_, ?_, ?_, ?_⟩
  · unfold handleAzureMFAEdits
    rw [if_pos (by decide)]
    by_cases hauth : profAuthType st.connectionProfile ≠ some AuthenticationType.AzureMFA
    · rw [if_pos hauth]
    · rw [if_neg hauth, if_neg (by decide), if_pos rfl]
  · intro propertyName hauth
    unfold handleAzureMFAEdits
    by_cases hmem : (["accountId", "tenantId", "authenticationType"].contains propertyName)
      = true
    · rw [if_pos hmem, if_pos hauth]
    · rw [if_neg hmem]
  · intro propertyName hmem
    unfold handleAzureMFAEdits
    rw [if_neg (by
      intro hc
      exact hmem (by simpa using hc))]
  · intro ac tc buttons hauth hac htc hbtn
    rw [hauth] at hbtn
    cases hten : getTenants accountsResult (profString st.connectionProfile "accountId") with
    | nil =>
      simp [handleAzureMFAEdits, hac, htc, hten, hauth, hbtn]
    | cons t ts =>
      simp [handleAzureMFAEdits, hac, htc, hten, hauth,
        profAuthType_objSet_tenantId, profString_accountId_objSet_tenantId, hbtn]
  · intro ac tc accountOptions firstOption buttons hauth hac htc hopts hbtn
    rw [hauth] at hbtn
    cases hten : getTenants accountsResult (some firstOption.value) with
    | nil =>
      simp [handleAzureMFAEdits, hac, htc, hopts, hauth,
        profAuthType_objSet_accountId, profString_objSet_str, hten, hbtn]
    | cons t ts =>
      simp [handleAzureMFAEdits, hac, htc, hopts, hauth,
        profAuthType_objSet_accountId, profAuthType_objSet_tenantId,
        profString_accountId_objSet_tenantId, profString_objSet_str, hten, hbtn]
  · intro auth accId accounts tokExp buttons hbtn
    rw [getAzureActionButtons_eq] at hbtn
    by_cases hguard : auth = some AuthenticationType.AzureMFA ∧ strTruthy accId
    · rw [if_pos hguard] at hbtn
      cases hfind : findAccountByUserId accounts (accId.getD "") with
      | error e =>
        rw [hfind] at hbtn
        exact absurd (show Except.error e = Except.ok buttons from hbtn) (by simp)
      | ok oa =>
        rw [hfind] at hbtn
        cases oa with
        | none =>
          have hb : buttons = [{ label := "signIn", id := "azureSignIn" }] :=
            (Except.ok.inj (show Except.ok [{ label := "signIn", id := "azureSignIn" }]
              = Except.ok buttons from hbtn)).symm
          subst hb
          refine ⟨Or.inl rfl, ?_⟩
          constructor
          · intro h
            simp at h
          · rintro ⟨_, _, ⟨a, ha⟩, _⟩
            simp at ha
        | some a =>
          cases tokExp with
          | true =>
            have hb : buttons = [{ label := "signIn", id := "azureSignIn" },
                { label := "refreshTokenLabel", id := "refreshToken" }] :=
              (Except.ok.inj (show Except.ok [{ label := "signIn", id := "azureSignIn" },
                  { label := "refreshTokenLabel", id := "refreshToken" }]
                = Except.ok buttons from hbtn)).symm
            subst hb
            refine ⟨Or.inr rfl, ?_⟩
            constructor
            · intro _
              exact ⟨hguard.1, hguard.2, ⟨a, rfl⟩, rfl⟩
            · intro _
              rfl
          | false =>
            have hb : buttons = [{ label := "signIn", id := "azureSignIn" }] :=
              (Except.ok.inj (show Except.ok [{ label := "signIn", id := "azureSignIn" }]
                = Except.ok buttons from hbtn)).symm
            subst hb
            refine ⟨Or.inl rfl, ?_⟩
            constructor
            · intro h
              simp at h
            · rintro ⟨_, _, _, htok⟩
              cases htok
    · rw [if_neg hguard] at hbtn
      have hb := (Except.ok.inj hbtn).symm
      subst hb
      refine ⟨Or.inl rfl, ?_⟩
      constructor
      · intro h
        simp at h
      · rintro ⟨h1, h2, _, _⟩
        exact absurd (show auth = some AuthenticationType.AzureMFA
            ∧ strTruthy accId = true from ⟨h1, by simpa using h2⟩) hguard

end MssqlDialog

namespace MssqlDialog

/-- Witness for C8 (amended): an `accountId` edit in the C8 scenario
re-fetches the tenants, stores them on the tenant component, auto-selects
tenant `t1`, and rebuilds the account buttons with just the sign-in
button (the cached token is not expired). -/
theorem claimC8_witness :
    handleAzureMFAEdits "accountId" sampleC8State (Except.ok [sampleC8Account])
        (Except.ok false)
      = Except.ok { sampleC8State with
          components := objSet (objSet sampleC8State.components "tenantId"
              { ({ propertyName := some "tenantId", options := some [] } :
                  ConnDialogFormItemSpec) with
                options := some (getTenants (Except.ok [sampleC8Account])
                  (profString sampleC8State.connectionProfile "accountId")) })
            "accountId"
            { ({ propertyName := some "accountId", options := some [] } :
                ConnDialogFormItemSpec) with
              actionButtons := some [{ label := "signIn", id := "azureSignIn" }] }
          connectionProfile :=
            match getTenants (Except.ok [sampleC8Account])
                (profString sampleC8State.connectionProfile "accountId") with
            | t :: _ =>
              objSet sampleC8State.connectionProfile "tenantId"
                (some (FieldValue.str t.value))
            | [] => sampleC8State.connectionProfile } :=
  (claimC8_handleAzureMFAEdits sampleC8State (Except.ok [sampleC8Account])
      (Except.ok false)).2.2.2.1
    { propertyName := some "accountId", options := some [] }
    { propertyName := some "tenantId", options := some [] }
    [{ label := "signIn", id := "azureSignIn" }]
    rfl rfl rfl rfl

end MssqlDialog

namespace MssqlDialog

theorem encounterOrder_mem_aux {β : Type} [DecidableEq β] (l : List β) (acc : List β)
    (x : β) :
    (x ∈ l.foldl (fun acc a => if a ∈ acc then acc else acc ++ [a]) acc)
      ↔ (x ∈ acc ∨ x ∈ l) := by
  induction l generalizing acc with
  | nil => simp
  | cons a rest ih =>
    rw [List.foldl_cons, ih]
    by_cases ha : a ∈ acc
    · rw [if_pos ha]
      constructor
      · rintro (h | h)
        · exact Or.inl h
        · exact Or.inr (List.mem_cons_of_mem _ h)
      · rintro (h | h)
        · exact Or.inl h
        · rcases List.mem_cons.mp h with rfl | h
          · exact Or.inl ha
          · exact Or.inr h
    · rw [if_neg ha]
      constructor
      · rintro (h | h)
        · rcases List.mem_append.mp h with h | h
          · exact Or.inl h
          · exact Or.inr (List.mem_cons.mpr (Or.inl (by simpa using h)))
        · exact Or.inr (List.mem_cons_of_mem _ h)
      · rintro (h | h)
        · exact Or.inl (List.mem_append_left _ h)
        · rcases List.mem_cons.mp h with rfl | h
          · exact Or.inl (List.mem_append_right _ (by simp))
          · exact Or.inr h

theorem encounterOrder_mem {β : Type} [DecidableEq β] (l : List β) (x : β) :
    x ∈ encounterOrder l ↔ x ∈ l := by
  unfold encounterOrder
  rw [encounterOrder_mem_aux]
  simp

theorem encounterOrder_append_mem {β : Type} [DecidableEq β] (l : List β) (a : β)
    (h : a ∈ l) : encounterOrder (l ++ [a]) = encounterOrder l := by
  have hmem : a ∈ List.foldl (fun acc a => if a ∈ acc then acc else acc ++ [a]) [] l :=
    (encounterOrder_mem l a).mpr h
  unfold encounterOrder
  rw [List.foldl_append, List.foldl_cons, List.foldl_nil, if_pos hmem]

theorem encounterOrder_append_not_mem {β : Type} [DecidableEq β] (l : List β) (a : β)
    (h : a ∉ l) : encounterOrder (l ++ [a]) = encounterOrder l ++ [a] := by
  have hmem : a ∉ List.foldl (fun acc a => if a ∈ acc then acc else acc ++ [a]) [] l :=
    fun hmem => h ((encounterOrder_mem l a).mp hmem)
  unfold encounterOrder
  rw [List.foldl_append, List.foldl_cons, List.foldl_nil, if_neg hmem]

theorem objGet_mapForm {κ α : Type} [DecidableEq κ] (f : κ → α) (keys : List κ) (k : κ) :
    objGet (keys.map (fun c => (c, f c))) k = if k ∈ keys then some (f k) else none := by
  induction keys with
  | nil => simp [objGet]
  | cons c rest ih =>
    by_cases hk : c = k
    · subst hk
      unfold objGet
      rw [List.map_cons, List.find?_cons_of_pos _ (by simp)]
      rw [if_pos (List.mem_cons_self _ _)]
      rfl
    · unfold objGet at ih ⊢
      rw [List.map_cons, List.find?_cons_of_neg _ (by simpa using hk), ih]
      by_cases hmem : k ∈ rest
      · rw [if_pos hmem, if_pos (List.mem_cons_of_mem _ hmem)]
      · rw [if_neg hmem, if_neg (by
          intro h
          rcases List.mem_cons.mp h with h | h
          · exact hk h.symm
          · exact hmem h)]

theorem objGet_isSome_eq_any {κ α : Type} [DecidableEq κ] (l : List (κ × α)) (k : κ) :
    (objGet l k).isSome = l.any (fun e => e.1 = k) := by
  unfold objGet
  cases hf : l.find? (fun e => e.1 = k) with
  | some e =>
    rw [List.any_eq_true.mpr ⟨e, List.mem_of_find?_eq_some hf, List.find?_some hf⟩]
    rfl
  | none =>
    cases hany : l.any (fun e => e.1 = k) with
    | false => rfl
    | true =>
      rcases List.any_eq_true.mp hany with ⟨e, he, hk⟩
      have hne := List.find?_eq_none.mp hf e he
      exact absurd hk hne

theorem mem_advancedCategoryOrder (P : List ConnDialogFormItemSpec) (c : Option String) :
    c ∈ advancedCategoryOrder P
      ↔ (c ∈ seedGroupKeys ∨ c ∈ P.map (fun x => x.optionCategory)) := by
  unfold advancedCategoryOrder
  rw [List.mem_append, List.mem_filter]
  rw [encounterOrder_mem]
  constructor
  · rintro (h | ⟨h, _⟩)
    · exact Or.inl h
    · exact Or.inr h
  · rintro (h | h)
    · exact Or.inl h
    · by_cases hs : c ∈ seedGroupKeys
      · exact Or.inl hs
      · exact Or.inr ⟨h, by simpa using hs⟩

theorem advancedCategoryOrder_append_of_mem (P : List ConnDialogFormItemSpec)
    (o : ConnDialogFormItemSpec)
    (h : o.optionCategory ∈ P.map (fun x => x.optionCategory)) :
    advancedCategoryOrder (P ++ [o]) = advancedCategoryOrder P := by
  unfold advancedCategoryOrder
  rw [List.map_append, List.map_singleton, encounterOrder_append_mem _ _ h]

theorem advancedCategoryOrder_append_seed (P : List ConnDialogFormItemSpec)
    (o : ConnDialogFormItemSpec)
    (h : o.optionCategory ∉ P.map (fun x => x.optionCategory))
    (hs : o.optionCategory ∈ seedGroupKeys) :
    advancedCategoryOrder (P ++ [o]) = advancedCategoryOrder P := by
  unfold advancedCategoryOrder
  rw [List.map_append, List.map_singleton, encounterOrder_append_not_mem _ _ h,
    List.filter_append]
  have : [o.optionCategory].filter (fun c => ¬seedGroupKeys.contains c) = [] := by
    simp [List.filter_cons, hs]
  rw [this, List.append_nil]

theorem advancedCategoryOrder_append_new (P : List ConnDialogFormItemSpec)
    (o : ConnDialogFormItemSpec)
    (h : o.optionCategory ∉ P.map (fun x => x.optionCategory))
    (hs : o.optionCategory ∉ seedGroupKeys) :
    advancedCategoryOrder (P ++ [o])
      = advancedCategoryOrder P ++ [o.optionCategory] := by
  unfold advancedCategoryOrder
  rw [List.map_append, List.map_singleton, encounterOrder_append_not_mem _ _ h,
    List.filter_append]
  have : [o.optionCategory].filter (fun c => ¬seedGroupKeys.contains c)
      = [o.optionCategory] := by
    simp [List.filter_cons, hs]
  rw [this, List.append_assoc]

theorem groupFor_append_other (P : List ConnDialogFormItemSpec)
    (o : ConnDialogFormItemSpec) (c : Option String) (h : o.optionCategory ≠ c) :
    groupFor (P ++ [o]) c = groupFor P c := by
  unfold groupFor
  rw [List.filter_append]
  have : [o].filter (fun x => x.optionCategory = c) = [] := by
    simp [List.filter_cons, h]
  rw [this, List.append_nil]

theorem groupFor_append_same (P : List ConnDialogFormItemSpec)
    (o : ConnDialogFormItemSpec) :
    groupFor (P ++ [o]) o.optionCategory
      = (match P.filter (fun x => x.optionCategory = o.optionCategory) with
         | [] => some { groupName := o.optionCategoryLabel
                        options := [o.propertyName] }
         | h :: t => some { groupName := h.optionCategoryLabel
                            options := ((h :: t).map (fun m => m.propertyName))
                              ++ [o.propertyName] }) := by
  unfold groupFor
  rw [List.filter_append]
  have hsingle : [o].filter (fun x => x.optionCategory = o.optionCategory) = [o] := by
    simp [List.filter_cons]
  rw [hsingle]
  cases hf : P.filter (fun x => x.optionCategory = o.optionCategory) with
  | nil => rfl
  | cons h t =>
    simp only [List.cons_append]
    rw [show ((h :: (t ++ [o])).map (fun m => m.propertyName))
      = ((h :: t).map (fun m => m.propertyName)) ++ [o.propertyName] from by
        simp]

end MssqlDialog

namespace MssqlDialog

theorem mapForm_objSet {κ α : Type} [DecidableEq κ] (keys : List κ) (f : κ → α)
    (k : κ) (v : α) (hk : k ∈ keys) :
    objSet (keys.map (fun c => (c, f c))) k v
      = keys.map (fun c => (c, if c = k then v else f c)) := by
  have hany : (keys.map (fun c => (c, f c))).any (fun e => e.1 = k) = true := by
    rw [← objGet_isSome_eq_any, objGet_mapForm, if_pos hk]
    rfl
  unfold objSet
  rw [if_pos hany, List.map_map]
  apply List.map_congr_left
  intro c _
  by_cases hc : c = k
  · subst hc
    simp [Function.comp]
  · simp [Function.comp, hc]

theorem mapForm_objSet_not_mem {κ α : Type} [DecidableEq κ] (keys : List κ) (f : κ → α)
    (k : κ) (v : α) (hk : k ∉ keys) :
    objSet (keys.map (fun c => (c, f c))) k v
      = keys.map (fun c => (c, f c)) ++ [(k, v)] := by
  have hany : (keys.map (fun c => (c, f c))).any (fun e => e.1 = k) = false := by
    rw [← objGet_isSome_eq_any, objGet_mapForm, if_neg hk]
    rfl
  unfold objSet
  rw [if_neg (by rw [hany]; simp)]

/-- The grouping map after processing a prefix of the considered options:
keyed by the category order so far, each key bound to its predicted
group. -/
def groupMapFor (P : List ConnDialogFormItemSpec) :
    List (Option String × Option ConnectionComponentGroup) :=
  (advancedCategoryOrder P).map (fun c => (c, groupFor P c))

theorem groupStep_eq_push (gm : List (Option String × Option ConnectionComponentGroup))
    (o : ConnDialogFormItemSpec) (g : ConnectionComponentGroup)
    (h : objGet gm o.optionCategory = some (some g)) :
    groupStep gm o
      = objSet gm o.optionCategory
          (some { g with options := g.options ++ [o.propertyName] }) := by
  unfold groupStep
  rw [h]

theorem groupStep_eq_fresh_present
    (gm : List (Option String × Option ConnectionComponentGroup))
    (o : ConnDialogFormItemSpec)
    (h : objGet gm o.optionCategory = some none) :
    groupStep gm o
      = objSet gm o.optionCategory
          (some { groupName := o.optionCategoryLabel
                  options := [o.propertyName] }) := by
  unfold groupStep
  rw [h]

theorem groupStep_eq_fresh_absent
    (gm : List (Option String × Option ConnectionComponentGroup))
    (o : ConnDialogFormItemSpec)
    (h : objGet gm o.optionCategory = none) :
    groupStep gm o
      = objSet gm o.optionCategory
          (some { groupName := o.optionCategoryLabel
                  options := [o.propertyName] }) := by
  unfold groupStep
  rw [h]

theorem groupStep_mapFor (P : List ConnDialogFormItemSpec)
    (o : ConnDialogFormItemSpec) :
    groupStep (groupMapFor P) o = groupMapFor (P ++ [o]) := by
  cases hf : P.filter (fun x => x.optionCategory = o.optionCategory) with
  | cons m t =>
    have hmemf : m ∈ P.filter (fun x => x.optionCategory = o.optionCategory) := by
      rw [hf]; exact List.mem_cons_self m t
    have hcatm : m.optionCategory = o.optionCategory := by
      simpa using (List.mem_filter.mp hmemf).2
    have hmemP : o.optionCategory ∈ P.map (fun x => x.optionCategory) :=
      List.mem_map.mpr ⟨m, (List.mem_filter.mp hmemf).1, hcatm⟩
    have hmemOrd : o.optionCategory ∈ advancedCategoryOrder P :=
      (mem_advancedCategoryOrder P _).mpr (Or.inr hmemP)
    have hgroupFor : groupFor P o.optionCategory
        = some { groupName := m.optionCategoryLabel
                 options := (m :: t).map (fun x => x.propertyName) } := by
      unfold groupFor
      rw [hf]
    have hgetg : objGet (groupMapFor P) o.optionCategory
        = some (some { groupName := m.optionCategoryLabel
                       options := (m :: t).map (fun x => x.propertyName) }) := by
      unfold groupMapFor
      rw [objGet_mapForm, if_pos hmemOrd, hgroupFor]
    rw [groupStep_eq_push _ _ _ hgetg]
    unfold groupMapFor
    rw [mapForm_objSet _ _ _ _ hmemOrd,
        advancedCategoryOrder_append_of_mem P o hmemP]
    apply List.map_congr_left
    intro c _
    by_cases hc : c = o.optionCategory
    · subst hc
      rw [if_pos rfl, groupFor_append_same, hf]
    · rw [if_neg hc, groupFor_append_other P o c (fun hh => hc hh.symm)]
  | nil =>
    have hnomem : o.optionCategory ∉ P.map (fun x => x.optionCategory) := by
      intro hm
      rcases List.mem_map.mp hm with ⟨x, hx, hcat⟩
      have hxf : x ∈ P.filter (fun y => y.optionCategory = o.optionCategory) :=
        List.mem_filter.mpr ⟨hx, by simpa using hcat⟩
      rw [hf] at hxf
      simp at hxf
    have hgroupFor : groupFor P o.optionCategory = none := by
      unfold groupFor
      rw [hf]
    by_cases hmemOrd : o.optionCategory ∈ advancedCategoryOrder P
    · have hseed : o.optionCategory ∈ seedGroupKeys := by
        rcases (mem_advancedCategoryOrder P _).mp hmemOrd with hs | hp
        · exact hs
        · exact absurd hp hnomem
      have hget : objGet (groupMapFor P) o.optionCategory = some none := by
        unfold groupMapFor
        rw [objGet_mapForm, if_pos hmemOrd, hgroupFor]
      rw [groupStep_eq_fresh_present _ _ hget]
      unfold groupMapFor
      rw [mapForm_objSet _ _ _ _ hmemOrd,
          advancedCategoryOrder_append_seed P o hnomem hseed]
      apply List.map_congr_left
      intro c _
      by_cases hc : c = o.optionCategory
      · subst hc
        rw [if_pos rfl, groupFor_append_same, hf]
      · rw [if_neg hc, groupFor_append_other P o c (fun hh => hc hh.symm)]
    · have hseed : o.optionCategory ∉ seedGroupKeys := by
        intro hs
        exact hmemOrd ((mem_advancedCategoryOrder P _).mpr (Or.inl hs))
      have hget : objGet (groupMapFor P) o.optionCategory = none := by
        unfold groupMapFor
        rw [objGet_mapForm, if_neg hmemOrd]
      rw [groupStep_eq_fresh_absent _ _ hget]
      unfold groupMapFor
      rw [mapForm_objSet_not_mem _ _ _ _ hmemOrd,
          advancedCategoryOrder_append_new P o hnomem hseed,
          List.map_append]
      congr 1
      · apply List.map_congr_left
        intro c hc
        have hcc : c ≠ o.optionCategory := fun hcc => hmemOrd (hcc ▸ hc)
        rw [groupFor_append_other P o c (fun hh => hcc hh.symm)]
      · rw [List.map_singleton, groupFor_append_same, hf]

end MssqlDialog

namespace MssqlDialog

theorem foldl_groupStep_mapFor (opts : List ConnDialogFormItemSpec) :
    ∀ P, opts.foldl groupStep (groupMapFor P) = groupMapFor (P ++ opts) := by
  induction opts with
  | nil =>
    intro P
    rw [List.foldl_nil, List.append_nil]
  | cons o rest ih =>
    intro P
    rw [List.foldl_cons, groupStep_mapFor, ih (P ++ [o]), List.append_assoc]
    rfl

theorem groupMapFor_nil :
    seedGroupKeys.map (fun k => (k, (none : Option ConnectionComponentGroup)))
      = groupMapFor [] := rfl

/-- C9: the compiled grouping of advanced options agrees everywhere with its
declarative description: exactly the fields flagged advanced that sit in
neither the main nor the top-advanced bucket are grouped by category id;
the map is seeded with the five well-known category ids (security,
initialization, resiliency, pooling, context) in that fixed order and
categories outside the seed list are appended in first-encounter order;
each populated group carries the first member's display label and the
member field names in encounter order.  Moreover every compiled field's
category label is looked up in the category-label map with fallback to
the raw category id. -/
theorem claimC9_groupAdvancedOptions :
    (∀ componentsInfo : ConnectionComponentsInfo,
        groupAdvancedOptions componentsInfo = groupAdvancedOptionsSpec componentsInfo)
    ∧ (∀ (groupNames : List (String × String)) (option : ConnectionOption),
        (compiledEntry groupNames option).optionCategory = some option.groupName
        ∧ (compiledEntry groupNames option).optionCategoryLabel
            = some ((objGet groupNames option.groupName).getD option.groupName)) := by
  constructor
  · intro ci
    show objValues
        ((optionsToGroup ci).foldl groupStep (seedGroupKeys.map (fun k => (k, none))))
      = groupAdvancedOptionsSpec ci
    rw [groupMapFor_nil, foldl_groupStep_mapFor, List.nil_append]
    unfold groupMapFor objValues groupAdvancedOptionsSpec
    rw [List.map_map]
    apply List.map_congr_left
    intro c _
    rfl
  · intro gn o
    exact ⟨rfl, rfl⟩

end MssqlDialog
